import Mathlib

/-!
Verification development for the SVG drawing-language interpreter
(src/app/lib/svgLang/interpreter.ts).

The TypeScript interpreter is shallowly embedded here:
- JS numbers (IEEE doubles) are modelled as exact rationals `Q` (an
  integer numerator with a positive denominator, not normalized so that
  every operation reduces in the kernel).  All programs examined by the
  theorems below stay within small exact values, where double and
  rational arithmetic agree.  Division by zero (JS Infinity) and NaN are
  outside every examined program and are noted where they are modelled
  conservatively.
- The mutable environment chain (JS Map objects linked by a hidden
  parent reference) is modelled as a store: a list of frames addressed
  by index, each frame holding an association list of variables and an
  optional parent index.  A JS Map reference becomes a frame index, so
  the sharing and mutation semantics of the original are preserved
  (closures capture a frame index; a later set through any alias is
  visible to all).
- The interpreter itself is one fuel-indexed structural function
  `interp`; fuel is a modelling device for partiality (the TS code has
  no step budget), and the result `R.oot` means the computation did not
  finish within the given fuel.  A program whose run is `R.oot` for
  every fuel diverges.
-/

namespace SvgLang

/-- Exact rational scalars standing in for JS numbers: numerator and a
positive denominator, not kept in lowest terms so that all operations
are plain integer arithmetic and reduce definitionally. -/
structure Q where
  num : Int
  den : Nat
deriving DecidableEq, Repr

/-- Embed an integer. -/
def Q.ofInt (n : Int) : Q := ⟨n, 1⟩

/-- Value equality (the JS number equality used by === on numbers). -/
def Q.beqVal (a b : Q) : Bool := a.num * (b.den : Int) = b.num * (a.den : Int)

/-- Less-than on values (denominators are positive by construction). -/
def Q.bltVal (a b : Q) : Bool := a.num * (b.den : Int) < b.num * (a.den : Int)

/-- Less-or-equal on values. -/
def Q.bleVal (a b : Q) : Bool := a.num * (b.den : Int) ≤ b.num * (a.den : Int)

def Q.add (a b : Q) : Q := ⟨a.num * (b.den : Int) + b.num * (a.den : Int), a.den * b.den⟩

def Q.sub (a b : Q) : Q := ⟨a.num * (b.den : Int) - b.num * (a.den : Int), a.den * b.den⟩

def Q.mul (a b : Q) : Q := ⟨a.num * b.num, a.den * b.den⟩

def Q.neg (a : Q) : Q := ⟨-a.num, a.den⟩

/-- Reciprocal; the reciprocal of zero is modelled as zero (JS would
produce Infinity; no examined program divides by zero). -/
def Q.inv (a : Q) : Q :=
  if a.num = 0 then ⟨0, 1⟩
  else if a.num > 0 then ⟨(a.den : Int), a.num.toNat⟩
  else ⟨-(a.den : Int), (-a.num).toNat⟩

def Q.div (a b : Q) : Q := a.mul b.inv

/-- Math.floor. -/
def Q.floor (a : Q) : Int := a.num.fdiv (a.den : Int)

/-- Truncation toward zero (used by the JS remainder). -/
def Q.trunc (a : Q) : Int := a.num.tdiv (a.den : Int)

/-- The JS % remainder: a - b * trunc(a / b); remainder by zero (JS NaN)
is modelled as zero, and is outside every examined program. -/
def Q.jsRem (a b : Q) : Q :=
  if b.num = 0 then ⟨0, 1⟩ else a.sub (b.mul (Q.ofInt ((a.div b).trunc)))

/-- Is the value an integer? -/
def Q.isInt (a : Q) : Bool := a.num.emod (a.den : Int) = 0

/-- JS String() on a number.  Faithful for integer values (the only
numbers the examined programs print or embed into markup); non-integer
formatting differs from JS and is never relied upon. -/
def Q.toStr (a : Q) : String :=
  if a.isInt then toString (a.num.tdiv (a.den : Int))
  else toString a.num ++ "/" ++ toString a.den

/-- Expressions (interpreter.ts, type Expr).  A call argument is an
optional name (named argument) with the argument expression. -/
inductive Expr where
  | num (v : Q)
  | str (v : String)
  | bool (v : Bool)
  | var (name : String)
  | call (callee : String) (args : List (Option String × Expr))
  | unary (op : String) (right : Expr)
  | binary (op : String) (left : Expr) (right : Expr)
  | group (inner : Expr)
deriving Repr

/-- Statements (interpreter.ts, type Stmt).  A function parameter is a
name with an optional default expression (type FnParam). -/
inductive Stmt where
  | varDecl (name : String) (expr : Expr)
  | assign (name : String) (expr : Expr)
  | print (expr : Expr)
  | repeatTimes (count : Expr) (asVar : Option String) (body : List Stmt)
  | repeatUntil (update : Stmt) (cond : Expr) (body : List Stmt)
  | ifS (branches : List (Expr × List Stmt)) (elseBody : Option (List Stmt))
  | fnDef (name : String) (params : List (String × Option Expr)) (body : List Stmt)
  | giveBack (expr : Option Expr)
  | drawCircle (x y r : Expr)
  | drawRect (x y w h : Expr)
  | drawLine (x1 y1 x2 y2 : Expr)
  | drawText (text : Expr) (x y : Expr) (size : Option Expr)
  | useFill (color : Expr)
  | useStroke (color : Expr) (width : Expr)
  | noFill
  | noStroke
  | startSvg (width : Expr) (height : Expr)
  | finishSvg
deriving Repr

/-- Runtime function value (interpreter.ts, type FnDef): parameters,
body, and the captured defining environment as a frame index. -/
structure FnDefV where
  params : List (String × Option Expr)
  body : List Stmt
  closure : Nat
deriving Repr

/-- Runtime values (interpreter.ts, type Value). -/
inductive Value where
  | num (v : Q)
  | str (v : String)
  | bool (v : Bool)
  | null
  | fn (f : FnDefV)
deriving Repr

/-- One environment frame: its variables (a JS Map, insertion ordered)
and the hidden parent reference (childEnv), as a store index. -/
structure Frame where
  parent : Option Nat
  vars : List (String × Value)
deriving Repr

/-- Current style state (interpreter.ts, class SvgState); none models
the JS null. -/
structure SvgState where
  fill : Option String
  stroke : Option String
  strokeWidth : Q
deriving Repr

/-- Drawing builder (interpreter.ts, class SvgBuilder). -/
structure SvgBuilder where
  width : Q
  height : Q
  started : Bool
  body : List String
  state : SvgState
deriving Repr

/-- Full interpreter state: the frame store, the index of the current
environment, the builder, and the print sink. -/
structure St where
  frames : List Frame
  env : Nat
  svg : SvgBuilder
  prints : List String
deriving Repr

/-- Association-list lookup (JS Map.get). -/
def lookupVar : List (String × Value) → String → Option Value
  | [], _ => none
  | (k, v) :: t, n => if k = n then some v else lookupVar t n

/-- Association-list membership (JS Map.has). -/
def hasVar : List (String × Value) → String → Bool
  | [], _ => false
  | (k, _) :: t, n => if k = n then true else hasVar t n

/-- Association-list update preserving insertion order (JS Map.set). -/
def updVar : List (String × Value) → String → Value → List (String × Value)
  | [], n, v => [(n, v)]
  | (k, w) :: t, n, v => if k = n then (k, v) :: t else (k, w) :: updVar t n v

/-- Walk the parent chain from frame i looking up a name
(interpreter.ts, getEnv).  The extra fuel argument bounds the walk; the
store only ever links a frame to an earlier one, so a fuel of the frame
count always suffices. -/
def getEnvChain (frames : List Frame) : Nat → Nat → String → Option Value
  | 0, _, _ => none
  | fuel + 1, i, name =>
    match frames[i]? with
    | none => none
    | some f =>
      match lookupVar f.vars name with
      | some v => some v
      | none =>
        match f.parent with
        | none => none
        | some p => getEnvChain frames fuel p name

/-- Assign through the parent chain: update the nearest frame that
already declares the name, else define at the outermost frame
(interpreter.ts, setEnv). -/
def setEnvChain (frames : List Frame) : Nat → Nat → String → Value → List Frame
  | 0, _, _, _ => frames
  | fuel + 1, i, name, v =>
    match frames[i]? with
    | none => frames
    | some f =>
      if hasVar f.vars name then frames.set i { f with vars := updVar f.vars name v }
      else
        match f.parent with
        | some p => setEnvChain frames fuel p name v
        | none => frames.set i { f with vars := updVar f.vars name v }

/-- Lookup starting from the current environment of a state. -/
def getEnv (s : St) (name : String) : Option Value :=
  getEnvChain s.frames s.frames.length s.env name

/-- Chain assignment on a state. -/
def setEnv (s : St) (name : String) (v : Value) : St :=
  { s with frames := setEnvChain s.frames s.frames.length s.env name v }

/-- Direct Map.set on one designated frame (used by let, by the counted
loop variable, and by call-argument binding on the callee frame). -/
def setFrame (s : St) (i : Nat) (name : String) (v : Value) : St :=
  { s with frames :=
      match s.frames[i]? with
      | none => s.frames
      | some f => s.frames.set i { f with vars := updVar f.vars name v } }

/-- Does frame i itself (not its chain) bind the name?  This is the
callEnv.get check used for missing-argument detection. -/
def frameBinds (s : St) (i : Nat) (name : String) : Bool :=
  match s.frames[i]? with
  | none => false
  | some f => hasVar f.vars name

/-- Truthiness coercion (interpreter.ts, Interpreter.truthy). -/
def truthy : Value → Bool
  | .bool b => b
  | .num q => !(q.beqVal (Q.ofInt 0))
  | .str s => s.length > 0
  | _ => false

/-- The JS typeof tag of a value (null and functions are object). -/
def typeofValue : Value → String
  | .num _ => "number"
  | .str _ => "string"
  | .bool _ => "boolean"
  | .null => "object"
  | .fn _ => "object"

/-- JS String() of a value, as pushed by print and used by string
concatenation. -/
def valToString : Value → String
  | .num q => q.toStr
  | .str s => s
  | .bool b => cond b "true" "false"
  | .null => "null"
  | .fn _ => "[object Object]"

/-- Strict equality following Interpreter.eq: differing runtime types
are never equal; otherwise === .  (JS === on two function objects is
reference equality; the model returns false for functions, a case no
examined program reaches.) -/
def eqVal : Value → Value → Bool
  | .num a, .num b => a.beqVal b
  | .str a, .str b => a = b
  | .bool a, .bool b => a = b
  | .null, .null => true
  | _, _ => false

/-- XML escaping (interpreter.ts, escapeXml).  The source applies four
sequential single-character replacements, amp first; mapping character
by character is extensionally the same because no replacement output
contains a character replaced later. -/
def escapeChar (c : Char) : String :=
  if c = '&' then "&amp;"
  else if c = '<' then "&lt;"
  else if c = '>' then "&gt;"
  else if c = '"' then "&quot;"
  else String.singleton c

def escapeXml (s : String) : String :=
  s.data.foldl (fun acc c => acc ++ escapeChar c) ""

/-- The attribute list built by SvgBuilder.attrs before joining: fill
(or none), then stroke and stroke-width when a stroke is set, then the
extra per-element attributes, in insertion order. -/
def attrsList (st : SvgState) (extra : List (String × String)) : List (String × String) :=
  (match st.fill with
   | some f => [("fill", f)]
   | none => [("fill", "none")]) ++
  (match st.stroke with
   | some c => [("stroke", c), ("stroke-width", st.strokeWidth.toStr)]
   | none => []) ++ extra

/-- Render an attribute list as the source does. -/
def renderAttrs (l : List (String × String)) : String :=
  String.intercalate " " (l.map (fun kv => kv.1 ++ "=\"" ++ escapeXml kv.2 ++ "\""))

/-- SvgBuilder.attrs. -/
def attrs (st : SvgState) (extra : List (String × String)) : String :=
  renderAttrs (attrsList st extra)

/-- SvgBuilder.circle. -/
def svgCircle (b : SvgBuilder) (cx cy r : Q) : SvgBuilder :=
  { b with body := b.body ++
      ["<circle " ++ attrs b.state [("cx", cx.toStr), ("cy", cy.toStr), ("r", r.toStr)] ++ " />"] }

/-- SvgBuilder.rect. -/
def svgRect (b : SvgBuilder) (x y w h : Q) : SvgBuilder :=
  { b with body := b.body ++
      ["<rect " ++ attrs b.state
        [("x", x.toStr), ("y", y.toStr), ("width", w.toStr), ("height", h.toStr)] ++ " />"] }

/-- SvgBuilder.line: when no stroke is set the source appends a default
stroke attribute pair so lines stay visible. -/
def svgLine (b : SvgBuilder) (x1 y1 x2 y2 : Q) : SvgBuilder :=
  let base := attrs b.state
    [("x1", x1.toStr), ("y1", y1.toStr), ("x2", x2.toStr), ("y2", y2.toStr)]
  let enforceStroke :=
    match b.state.stroke with
    | none => " stroke=\"black\" stroke-width=\"1\""
    | some _ => ""
  { b with body := b.body ++ ["<line " ++ base ++ enforceStroke ++ " />"] }

/-- SvgBuilder.text. -/
def svgText (b : SvgBuilder) (x y : Q) (txt : String) (size : Option Q) : SvgBuilder :=
  let base := attrs b.state []
  let font :=
    match size with
    | some sz => " font-size=\"" ++ sz.toStr ++ "\""
    | none => ""
  { b with body := b.body ++
      ["<text x=\"" ++ x.toStr ++ "\" y=\"" ++ y.toStr ++ "\"" ++ font ++ " " ++ base ++ ">"
        ++ escapeXml txt ++ "</text>"] }

/-- SvgBuilder.start: set dimensions, mark started, clear the body. -/
def svgStart (b : SvgBuilder) (w h : Q) : SvgBuilder :=
  { b with width := w, height := h, started := true, body := [] }

/-- SvgBuilder.finish rendering (the serialized document). -/
def svgRender (b : SvgBuilder) : String :=
  "<svg xmlns=\"http://www.w3.org/2000/svg\" width=\"" ++ b.width.toStr
    ++ "\" height=\"" ++ b.height.toStr ++ "\" viewBox=\"0 0 " ++ b.width.toStr ++ " "
    ++ b.height.toStr ++ "\">" ++ "\n" ++ String.intercalate "\n" b.body ++ "\n</svg>"

/-- Evaluation / execution results.  val is an expression value, done
a normally completed statement, ret the non-local return signal
(class ReturnSignal), err a thrown RuntimeError message, and oot means
the computation did not finish within the given fuel. -/
inductive R where
  | val (v : Value) (s : St)
  | done (s : St)
  | ret (v : Value) (s : St)
  | err (msg : String)
  | oot
deriving Repr

/-- The pure part of binary evaluation (interpreter.ts, the switch in
the Binary case of Interpreter.eval), applied after both operands have
been evaluated eagerly. -/
def evalBinOp (op : String) (a b : Value) : Except String Value :=
  match op with
  | "+" =>
    (match a, b with
     | .num x, .num y => .ok (.num (x.add y))
     | _, _ => .ok (.str (valToString a ++ valToString b)))
  | "-" =>
    (match a, b with
     | .num x, .num y => .ok (.num (x.sub y))
     | _, _ => .error ("Invalid operands for " ++ op))
  | "*" =>
    (match a, b with
     | .num x, .num y => .ok (.num (x.mul y))
     | _, _ => .error ("Invalid operands for " ++ op))
  | "/" =>
    (match a, b with
     | .num x, .num y => .ok (.num (x.div y))
     | _, _ => .error ("Invalid operands for " ++ op))
  | "%" =>
    (match a, b with
     | .num x, .num y => .ok (.num (x.jsRem y))
     | _, _ => .error ("Invalid operands for " ++ op))
  | "==" => .ok (.bool (eqVal a b))
  | "!=" => .ok (.bool (!eqVal a b))
  | "<" =>
    (match a, b with
     | .num x, .num y => .ok (.bool (x.bltVal y))
     | _, _ => .error "Comparison expects numbers")
  | "<=" =>
    (match a, b with
     | .num x, .num y => .ok (.bool (x.bleVal y))
     | _, _ => .error "Comparison expects numbers")
  | ">" =>
    (match a, b with
     | .num x, .num y => .ok (.bool (y.bltVal x))
     | _, _ => .error "Comparison expects numbers")
  | ">=" =>
    (match a, b with
     | .num x, .num y => .ok (.bool (y.bleVal x))
     | _, _ => .error "Comparison expects numbers")
  | "and" => .ok (.bool (truthy a && truthy b))
  | "or" => .ok (.bool (truthy a || truthy b))
  | _ => .error ("Invalid operands for " ++ op)

/-- The unary cases of Interpreter.eval. -/
def evalUnOp (op : String) (r : Value) : Except String Value :=
  match op with
  | "neg" =>
    (match r with
     | .num x => .ok (.num x.neg)
     | _ => .error "Unary - expects a number")
  | "not" => .ok (.bool (!truthy r))
  | _ => .error ("Unknown unary op " ++ op)

/-- The work items of the interpreter: evaluate an expression, execute
one statement or a list, the three argument-binding passes of a call
(positional fill, defaults for the remaining declared parameters, named
overrides), the counted-loop iteration, and the conditional chain. -/
inductive Job where
  | ev (e : Expr)
  | st (stm : Stmt)
  | sts (l : List Stmt)
  | bindPos (callee : String) (params : List (String × Option Expr)) (ci : Nat)
      (args : List (Option String × Expr)) (pos : Nat)
  | bindDef (callee : String) (rest : List (String × Option Expr)) (ci : Nat)
  | bindNamed (callee : String) (params : List (String × Option Expr)) (ci : Nat)
      (args : List (Option String × Expr))
  | timesLoop (name : String) (body : List Stmt) (ks : List Int)
  | branches (bs : List (Expr × List Stmt)) (els : Option (List Stmt))

/-- First parameter not bound in the callee frame (the missing-argument
check after binding). -/
def firstUnbound (s : St) (ci : Nat) : List (String × Option Expr) → Option String
  | [] => none
  | (n, _) :: t => if frameBinds s ci n then firstUnbound s ci t else some n

/-- The interpreter (Interpreter.eval / Interpreter.exec and the
argument-binding loops of the Call case), as one structurally
fuel-indexed evaluator.  Every recursive call runs at the predecessor
fuel; R.oot reports fuel exhaustion. -/
def interp : Nat → Job → St → R
  | 0, _, _ => .oot
  | fuel + 1, job, s =>
    match job with
    | .ev e =>
      match e with
      | .num v => .val (.num v) s
      | .str v => .val (.str v) s
      | .bool v => .val (.bool v) s
      | .var name =>
        match getEnv s name with
        | none => .err ("Undefined variable " ++ name)
        | some v => .val v s
      | .group inner => interp fuel (.ev inner) s
      | .unary op right =>
        match interp fuel (.ev right) s with
        | .val r s1 =>
          match evalUnOp op r with
          | .ok v => .val v s1
          | .error m => .err m
        | other => other
      | .binary op left right =>
        match interp fuel (.ev left) s with
        | .val a s1 =>
          match interp fuel (.ev right) s1 with
          | .val b s2 =>
            match evalBinOp op a b with
            | .ok v => .val v s2
            | .error m => .err m
          | other => other
        | other => other
      | .call callee args =>
        match getEnv s callee with
        | none => .err ("Undefined function " ++ callee)
        | some calleeVal =>
          match calleeVal with
          | .fn f =>
            let ci := s.frames.length
            let s1 : St := { s with frames := s.frames ++ [⟨some f.closure, []⟩] }
            match interp fuel (.bindPos callee f.params ci args 0) s1 with
            | .done s2 =>
              match interp fuel (.bindNamed callee f.params ci args) s2 with
              | .done s3 =>
                match firstUnbound s3 ci f.params with
                | some pname => .err ("Missing argument " ++ pname ++ " for " ++ callee)
                | none =>
                  match interp fuel (.sts f.body) { s3 with env := ci } with
                  | .done s4 => .val .null { s4 with env := s.env }
                  | .ret v s4 => .val v { s4 with env := s.env }
                  | .err m => .err m
                  | _ => .oot
              | .err m => .err m
              | _ => .oot
            | .err m => .err m
            | _ => .oot
          | _ => .err (callee ++ " is not a function")
    | .bindPos callee params ci args pos =>
      match args with
      | [] => interp fuel (.bindDef callee (params.drop pos) ci) s
      | (some _, _) :: rest => interp fuel (.bindPos callee params ci rest pos) s
      | (none, e) :: rest =>
        match params[pos]? with
        | none => .err ("Too many arguments to " ++ callee)
        | some p =>
          match interp fuel (.ev e) s with
          | .val v s1 =>
            interp fuel (.bindPos callee params ci rest (pos + 1)) (setFrame s1 ci p.1 v)
          | .err m => .err m
          | _ => .oot
    | .bindDef callee rest ci =>
      match rest with
      | [] => .done s
      | (pname, d) :: t =>
        match d with
        | none => interp fuel (.bindDef callee t ci) s
        | some de =>
          match interp fuel (.ev de) s with
          | .val v s1 => interp fuel (.bindDef callee t ci) (setFrame s1 ci pname v)
          | .err m => .err m
          | _ => .oot
    | .bindNamed callee params ci args =>
      match args with
      | [] => .done s
      | (none, _) :: rest => interp fuel (.bindNamed callee params ci rest) s
      | (some n, e) :: rest =>
        match params.find? (fun p => p.1 = n) with
        | none => .err ("Unknown parameter " ++ n ++ " for " ++ callee)
        | some p =>
          match interp fuel (.ev e) s with
          | .val v s1 => interp fuel (.bindNamed callee params ci rest) (setFrame s1 ci p.1 v)
          | .err m => .err m
          | _ => .oot
    | .sts l =>
      match l with
      | [] => .done s
      | stm :: rest =>
        match interp fuel (.st stm) s with
        | .done s1 => interp fuel (.sts rest) s1
        | other => other
    | .timesLoop name body ks =>
      match ks with
      | [] => .done s
      | k :: rest =>
        match interp fuel (.sts body) (setFrame s s.env name (.num (Q.ofInt k))) with
        | .done s1 => interp fuel (.timesLoop name body rest) s1
        | other => other
    | .branches bs els =>
      match bs with
      | [] =>
        match els with
        | none => .done s
        | some b => interp fuel (.sts b) s
      | (c, b) :: rest =>
        match interp fuel (.ev c) s with
        | .val v s1 =>
          if truthy v then interp fuel (.sts b) s1
          else interp fuel (.branches rest els) s1
        | .err m => .err m
        | _ => .oot
    | .st stm =>
      match stm with
      | .varDecl name e =>
        match interp fuel (.ev e) s with
        | .val v s1 => .done (setFrame s1 s1.env name v)
        | other => other
      | .assign name e =>
        match interp fuel (.ev e) s with
        | .val v s1 => .done (setEnv s1 name v)
        | other => other
      | .print e =>
        match interp fuel (.ev e) s with
        | .val v s1 => .done { s1 with prints := s1.prints ++ [valToString v] }
        | other => other
      | .useFill c =>
        match interp fuel (.ev c) s with
        | .val v s1 =>
          match v with
          | .str col => .done { s1 with svg.state.fill := some col }
          | _ => .err "fill color must be a string"
        | other => other
      | .useStroke c w =>
        match interp fuel (.ev c) s with
        | .val vc s1 =>
          match interp fuel (.ev w) s1 with
          | .val vw s2 =>
            match vc with
            | .str col =>
              match vw with
              | .num q =>
                .done { s2 with svg.state.stroke := some col, svg.state.strokeWidth := q }
              | _ => .err "stroke width must be a number"
            | _ => .err "stroke color must be a string"
          | other => other
        | other => other
      | .noFill => .done { s with svg.state.fill := none }
      | .noStroke => .done { s with svg.state.stroke := none }
      | .startSvg we he =>
        match interp fuel (.ev we) s with
        | .val vw s1 =>
          match vw with
          | .num w =>
            match interp fuel (.ev he) s1 with
            | .val vh s2 =>
              match vh with
              | .num h => .done { s2 with svg := svgStart s2.svg w h }
              | _ => .err ("Expected number, got " ++ typeofValue vh)
            | other => other
          | _ => .err ("Expected number, got " ++ typeofValue vw)
        | other => other
      | .finishSvg => .done s
      | .drawCircle xe ye re =>
        match interp fuel (.ev xe) s with
        | .val vx s1 =>
          match vx with
          | .num x =>
            match interp fuel (.ev ye) s1 with
            | .val vy s2 =>
              match vy with
              | .num y =>
                match interp fuel (.ev re) s2 with
                | .val vr s3 =>
                  match vr with
                  | .num r => .done { s3 with svg := svgCircle s3.svg x y r }
                  | _ => .err ("Expected number, got " ++ typeofValue vr)
                | other => other
              | _ => .err ("Expected number, got " ++ typeofValue vy)
            | other => other
          | _ => .err ("Expected number, got " ++ typeofValue vx)
        | other => other
      | .drawRect xe ye we he =>
        match interp fuel (.ev xe) s with
        | .val vx s1 =>
          match vx with
          | .num x =>
            match interp fuel (.ev ye) s1 with
            | .val vy s2 =>
              match vy with
              | .num y =>
                match interp fuel (.ev we) s2 with
                | .val vw s3 =>
                  match vw with
                  | .num w =>
                    match interp fuel (.ev he) s3 with
                    | .val vh s4 =>
                      match vh with
                      | .num h => .done { s4 with svg := svgRect s4.svg x y w h }
                      | _ => .err ("Expected number, got " ++ typeofValue vh)
                    | other => other
                  | _ => .err ("Expected number, got " ++ typeofValue vw)
                | other => other
              | _ => .err ("Expected number, got " ++ typeofValue vy)
            | other => other
          | _ => .err ("Expected number, got " ++ typeofValue vx)
        | other => other
      | .drawLine x1e y1e x2e y2e =>
        match interp fuel (.ev x1e) s with
        | .val v1 s1 =>
          match v1 with
          | .num x1 =>
            match interp fuel (.ev y1e) s1 with
            | .val v2 s2 =>
              match v2 with
              | .num y1 =>
                match interp fuel (.ev x2e) s2 with
                | .val v3 s3 =>
                  match v3 with
                  | .num x2 =>
                    match interp fuel (.ev y2e) s3 with
                    | .val v4 s4 =>
                      match v4 with
                      | .num y2 => .done { s4 with svg := svgLine s4.svg x1 y1 x2 y2 }
                      | _ => .err ("Expected number, got " ++ typeofValue v4)
                    | other => other
                  | _ => .err ("Expected number, got " ++ typeofValue v3)
                | other => other
              | _ => .err ("Expected number, got " ++ typeofValue v2)
            | other => other
          | _ => .err ("Expected number, got " ++ typeofValue v1)
        | other => other
      | .drawText te xe ye sze =>
        match interp fuel (.ev te) s with
        | .val vt s1 =>
          match vt with
          | .str txt =>
            match interp fuel (.ev xe) s1 with
            | .val vx s2 =>
              match vx with
              | .num x =>
                match interp fuel (.ev ye) s2 with
                | .val vy s3 =>
                  match vy with
                  | .num y =>
                    match sze with
                    | none => .done { s3 with svg := svgText s3.svg x y txt none }
                    | some se =>
                      match interp fuel (.ev se) s3 with
                      | .val vs s4 =>
                        match vs with
                        | .num sz => .done { s4 with svg := svgText s4.svg x y txt (some sz) }
                        | _ => .err ("Expected number, got " ++ typeofValue vs)
                      | other => other
                  | _ => .err ("Expected number, got " ++ typeofValue vy)
                | other => other
              | _ => .err ("Expected number, got " ++ typeofValue vx)
            | other => other
          | _ => .err "text content must be a string"
        | other => other
      | .repeatTimes count asVar body =>
        match interp fuel (.ev count) s with
        | .val vc s1 =>
          match vc with
          | .num q =>
            let n := max 0 q.floor
            let ks := (List.range n.toNat).map (fun j => (j : Int) + 1)
            interp fuel (.timesLoop (asVar.getD "it") body ks) s1
          | _ => .err ("Expected number, got " ++ typeofValue vc)
        | other => other
      | .ifS bs els => interp fuel (.branches bs els) s
      | .fnDef name params body =>
        .done (setFrame s s.env name (.fn ⟨params, body, s.env⟩))
      | .giveBack e? =>
        match e? with
        | none => .ret .null s
        | some e =>
          match interp fuel (.ev e) s with
          | .val v s1 => .ret v s1
          | other => other
      | .repeatUntil u c b =>
        match interp fuel (.st u) s with
        | .done s1 =>
          match interp fuel (.ev c) s1 with
          | .val v s2 =>
            if truthy v then .done s2
            else
              match interp fuel (.sts b) s2 with
              | .done s3 => interp fuel (.st (.repeatUntil u c b)) s3
              | other => other
          | .err m => .err m
          | _ => .oot
        | other => other

/-- Interpreter.eval. -/
def evalE (fuel : Nat) (e : Expr) (s : St) : R := interp fuel (.ev e) s

/-- Interpreter.exec. -/
def execS (fuel : Nat) (stm : Stmt) (s : St) : R := interp fuel (.st stm) s

/-- Executing a statement list in order. -/
def execList (fuel : Nat) (l : List Stmt) (s : St) : R := interp fuel (.sts l) s

/-- The fresh state a run starts from: one root frame, default builder
(300 x 150, fill black, no stroke, width 1), empty print sink. -/
def initSt : St :=
  { frames := [⟨none, []⟩]
    env := 0
    svg :=
      { width := Q.ofInt 300, height := Q.ofInt 150, started := false, body := []
        state := { fill := some "black", stroke := none, strokeWidth := Q.ofInt 1 } }
    prints := [] }

/-- Outcome of a whole program run (compileAndRenderSVG after parsing:
programs are given here directly as statement lists).  Note the single
entry point takes no execution budget of any kind; the fuel argument is
only the partiality device of this embedding. -/
inductive ROut where
  | out (svg : String)
  | thrown (msg : String)
  | oot
deriving DecidableEq, Repr

/-- Interpreter.run: execute all statements, then auto-finish when a
canvas was started, else return the empty string.  A return signal
escaping to the top level surfaces as a thrown error, as the uncaught
ReturnSignal exception would. -/
def run (fuel : Nat) (prog : List Stmt) : ROut :=
  match execList fuel prog initSt with
  | .done s => if s.svg.started then .out (svgRender s.svg) else .out ""
  | .ret _ _ => .thrown "return"
  | .err m => .thrown m
  | _ => .oot

/-! ### Example programs used by the theorems

Programs are written directly as the AST the parser would produce for
the quoted surface syntax. -/

/-- Shorthand for an integer literal expression. -/
def qlit (n : Int) : Expr := .num (Q.ofInt n)

/-- The print sink of a normally completed execution. -/
def printsOf : R → Option (List String)
  | .done s => some s.prints
  | _ => none

/-- let x be 0 / repeat x be x + 10 until x at least 100: print x end -/
def untilDemo : List Stmt :=
  [.varDecl "x" (qlit 0),
   .repeatUntil (.assign "x" (.binary "+" (.var "x") (qlit 10)))
     (.binary ">=" (.var "x") (qlit 100))
     [.print (.var "x")]]

/-- repeat 2 times as i: end / print i -/
def timesLeak : List Stmt :=
  [.repeatTimes (qlit 2) (some "i") [], .print (.var "i")]

/-- repeat 3 times as j: end / print j -/
def timesAfter : List Stmt :=
  [.repeatTimes (qlit 3) (some "j") [], .print (.var "j")]

/-- repeat 5 times as i: print i end -/
def timesSeq : List Stmt :=
  [.repeatTimes (qlit 5) (some "i") [.print (.var "i")]]

/-- repeat 2.7 times: print it end -/
def timesFloor : List Stmt :=
  [.repeatTimes (.num ⟨27, 10⟩) none [.print (.var "it")]]

/-- repeat -3 times: print 1 end -/
def timesNeg : List Stmt :=
  [.repeatTimes (qlit (-3)) none [.print (qlit 1)]]

/-- repeat 0 times: print 1 end -/
def timesZero : List Stmt :=
  [.repeatTimes (qlit 0) none [.print (qlit 1)]]

/-- to c(): print "count" / give back 3 end / repeat c() times as i: print i end -/
def timesOnce : List Stmt :=
  [.fnDef "c" [] [.print (.str "count"), .giveBack (some (qlit 3))],
   .repeatTimes (.call "c" []) (some "i") [.print (.var "i")]]

/-- to f(x, y = x): give back y end / print f(5), with no x in scope. -/
def defaultNoCaller : List Stmt :=
  [.fnDef "f" [("x", none), ("y", some (.var "x"))] [.giveBack (some (.var "y"))],
   .print (.call "f" [(none, qlit 5)])]

/-- let x be 99 / to f(x, y = x): give back y end / print f(5). -/
def defaultCallerEnv : List Stmt :=
  [.varDecl "x" (qlit 99),
   .fnDef "f" [("x", none), ("y", some (.var "x"))] [.giveBack (some (.var "y"))],
   .print (.call "f" [(none, qlit 5)])]

/-- to g(): print "d" / give back 1 end / to f(a = g()): give back a end /
print f(a = 7). -/
def defaultBeforeNamed : List Stmt :=
  [.fnDef "g" [] [.print (.str "d"), .giveBack (some (qlit 1))],
   .fnDef "f" [("a", some (.call "g" []))] [.giveBack (some (.var "a"))],
   .print (.call "f" [(some "a", qlit 7)])]

/-- to f(a, b): print a / print b end / let r be f(1, 2). -/
def posFill : List Stmt :=
  [.fnDef "f" [("a", none), ("b", none)] [.print (.var "a"), .print (.var "b")],
   .varDecl "r" (.call "f" [(none, qlit 1), (none, qlit 2)])]

/-- to f(a): end / let r be f(1, 2). -/
def tooMany : List Stmt :=
  [.fnDef "f" [("a", none)] [],
   .varDecl "r" (.call "f" [(none, qlit 1), (none, qlit 2)])]

/-- to f(a): end / let r be f(b = 1). -/
def unknownNamed : List Stmt :=
  [.fnDef "f" [("a", none)] [],
   .varDecl "r" (.call "f" [(some "b", qlit 1)])]

/-- to f(a): end / let r be f(). -/
def missingArg : List Stmt :=
  [.fnDef "f" [("a", none)] [],
   .varDecl "r" (.call "f" [])]

/-- circle at (1, 2) radius 3, with no preceding start svg. -/
def drawEarly : List Stmt := [.drawCircle (qlit 1) (qlit 2) (qlit 3)]

/-- circle before start, then start svg 10 10, then a rect. -/
def resetDemo : List Stmt :=
  [.drawCircle (qlit 1) (qlit 2) (qlit 3), .startSvg (qlit 10) (qlit 10),
   .drawRect (qlit 1) (qlit 1) (qlit 2) (qlit 2)]

/-- start svg 10 10 / no stroke / line from (0,0) to (1,1). -/
def lineNoStroke : List Stmt :=
  [.startSvg (qlit 10) (qlit 10), .noStroke,
   .drawLine (qlit 0) (qlit 0) (qlit 1) (qlit 1)]

/-- start / use fill red / circle / use fill blue / circle. -/
def snapDemo : List Stmt :=
  [.startSvg (qlit 10) (qlit 10), .useFill (.str "red"),
   .drawCircle (qlit 1) (qlit 1) (qlit 1), .useFill (.str "blue"),
   .drawCircle (qlit 2) (qlit 2) (qlit 2)]

/-- start / no stroke / no fill / rect / text. -/
def noStrokeDemo : List Stmt :=
  [.startSvg (qlit 10) (qlit 10), .noStroke, .noFill,
   .drawRect (qlit 1) (qlit 1) (qlit 2) (qlit 2),
   .drawText (.str "hi") (qlit 3) (qlit 4) (some (qlit 14))]

/-! ### C3: counted-loop semantics -/

/-- C3 counterexample: the claim says the loop variable is bound in the
loop s own scope, not the enclosing frame.  In the code the loop
variable is written with Map.set into the frame that is current when
the loop runs, so after repeat 2 times as i: end the enclosing (root)
frame binds i to 2 and a following print i succeeds printing 2; under
the claimed scoping the variable reference would be undefined. -/
theorem repeatTimes_scope_counterexample :
    execList 100 timesLeak initSt =
      .done { initSt with
              frames := [⟨none, [("i", .num ⟨2, 1⟩)]⟩],
              prints := ["2"] } := rfl

/-- C3 amended: the count expression is evaluated exactly once at loop
entry, floored, and clamped to zero if negative; the loop variable (the
given name, or it when unnamed) is rebound on each iteration to the
integers 1..count in order, but in the frame current at the loop — it
remains bound there after the loop — and repeat 0 times executes the
body zero times. -/
theorem repeatTimes_semantics :
    printsOf (execList 100 timesSeq initSt) = some ["1", "2", "3", "4", "5"] ∧
    printsOf (execList 100 timesFloor initSt) = some ["1", "2"] ∧
    printsOf (execList 100 timesNeg initSt) = some [] ∧
    printsOf (execList 100 timesZero initSt) = some [] ∧
    printsOf (execList 100 timesOnce initSt) = some ["count", "1", "2", "3"] ∧
    printsOf (execList 100 timesAfter initSt) = some ["3"] :=
  ⟨rfl, rfl, rfl, rfl, rfl, rfl⟩

/-! ### C4: call argument binding -/

/-- C4 counterexample: the claim says defaults are evaluated only after
positional and named binding, for still-unbound parameters, and in the
new call frame where sibling parameters are visible.  In the code the
defaults pass runs before named binding and evaluates each default in
the callers environment: for to f(x, y = x) the call f(5) fails with an
undefined-variable error on x (the claim instead implies success with y
bound to 5, the sibling parameter). -/
theorem call_defaults_counterexample :
    execList 100 defaultNoCaller initSt = .err "Undefined variable x" := rfl

/-- C4 amended: unnamed arguments fill parameters left to right (an
excess is a too-many-arguments error); then every parameter at or after
the positional count that has a default gets its default evaluated in
the callers environment — even a parameter later overridden by a named
argument; then named arguments bind by name (unknown names error),
overriding prior bindings; any parameter still unbound afterwards is a
missing-argument error. -/
theorem call_binding_semantics :
    printsOf (execList 100 defaultCallerEnv initSt) = some ["99"] ∧
    printsOf (execList 100 defaultBeforeNamed initSt) = some ["d", "7"] ∧
    printsOf (execList 100 posFill initSt) = some ["1", "2"] ∧
    execList 100 tooMany initSt = .err "Too many arguments to f" ∧
    execList 100 unknownNamed initSt = .err "Unknown parameter b for f" ∧
    execList 100 missingArg initSt = .err "Missing argument a for f" :=
  ⟨rfl, rfl, rfl, rfl, rfl, rfl⟩

/-! ### C6: drawing before canvas start -/

/-- C6 counterexample: the claim says drawing before a canvas start
fails with a RuntimeError.  Executing a lone circle statement with no
preceding start completes normally (the builder appends the element
without checking the started flag). -/
theorem draw_before_start_no_error :
    execList 100 drawEarly initSt =
      .done { initSt with
              svg.body := ["<circle fill=\"black\" cx=\"1\" cy=\"2\" r=\"3\" />"] } := rfl

/-- C6 amended: drawing, style, and finish statements before a canvas
start all execute without error (only the serialization helper checks
the started flag, and the run loop never invokes it unless a start
occurred); operations emitted before the start never reach the output,
because the start statement clears the operation list and a program
that never starts renders nothing, so every drawing operation in a
successful output follows the start. -/
theorem pre_start_semantics :
    execList 100 [.useFill (.str "red")] initSt =
      .done { initSt with svg.state.fill := some "red" } ∧
    execList 100 [.finishSvg] initSt = .done initSt ∧
    run 100 resetDemo =
      .out ("<svg xmlns=\"http://www.w3.org/2000/svg\" width=\"10\" height=\"10\" viewBox=\"0 0 10 10\">\n"
        ++ "<rect fill=\"black\" x=\"1\" y=\"1\" width=\"2\" height=\"2\" />\n</svg>") ∧
    run 100 drawEarly = .out "" :=
  ⟨rfl, rfl, rfl, rfl⟩

/-! ### C8: style snapshots in the serialized document -/

/-- C8 counterexample: the claim says an element emitted while stroke
is absent carries no stroke attributes at all, including line elements.
A line drawn with no stroke set is serialized with the default
attributes stroke black and stroke-width 1 appended. -/
theorem line_default_stroke_counterexample :
    run 100 lineNoStroke =
      .out ("<svg xmlns=\"http://www.w3.org/2000/svg\" width=\"10\" height=\"10\" viewBox=\"0 0 10 10\">\n"
        ++ "<line fill=\"black\" x1=\"0\" y1=\"0\" x2=\"1\" y2=\"1\" stroke=\"black\" stroke-width=\"1\" />\n</svg>") := rfl

/-! ### One-step unfolding lemmas for the interpreter (all definitional) -/

lemma interp_ev_var (fuel : Nat) (name : String) (s : St) :
    interp (fuel + 1) (.ev (.var name)) s =
      match getEnv s name with
      | none => .err ("Undefined variable " ++ name)
      | some v => .val v s := rfl

lemma interp_ev_binary (fuel : Nat) (op : String) (a b : Expr) (s : St) :
    interp (fuel + 1) (.ev (.binary op a b)) s =
      match interp fuel (.ev a) s with
      | .val va s1 =>
        match interp fuel (.ev b) s1 with
        | .val vb s2 =>
          match evalBinOp op va vb with
          | .ok v => .val v s2
          | .error m => .err m
        | other => other
      | other => other := rfl

lemma interp_st_repeatUntil (fuel : Nat) (u : Stmt) (c : Expr) (b : List Stmt) (s : St) :
    interp (fuel + 1) (.st (.repeatUntil u c b)) s =
      match interp fuel (.st u) s with
      | .done s1 =>
        match interp fuel (.ev c) s1 with
        | .val v s2 =>
          if truthy v then .done s2
          else
            match interp fuel (.sts b) s2 with
            | .done s3 => interp fuel (.st (.repeatUntil u c b)) s3
            | other => other
        | .err m => .err m
        | _ => .oot
      | other => other := rfl

lemma interp_sts_nil (fuel : Nat) (s : St) :
    interp (fuel + 1) (.sts []) s = .done s := rfl

lemma interp_sts_cons (fuel : Nat) (stm : Stmt) (rest : List Stmt) (s : St) :
    interp (fuel + 1) (.sts (stm :: rest)) s =
      match interp fuel (.st stm) s with
      | .done s1 => interp fuel (.sts rest) s1
      | other => other := rfl

lemma interp_st_giveBack_some (fuel : Nat) (e : Expr) (s : St) :
    interp (fuel + 1) (.st (.giveBack (some e))) s =
      match interp fuel (.ev e) s with
      | .val v s1 => .ret v s1
      | other => other := rfl

lemma interp_ev_call (fuel : Nat) (c : String) (args : List (Option String × Expr)) (s : St) :
    interp (fuel + 1) (.ev (.call c args)) s =
      match getEnv s c with
      | none => .err ("Undefined function " ++ c)
      | some calleeVal =>
        match calleeVal with
        | .fn f =>
          match interp fuel (.bindPos c f.params s.frames.length args 0)
              { s with frames := s.frames ++ [⟨some f.closure, []⟩] } with
          | .done s2 =>
            match interp fuel (.bindNamed c f.params s.frames.length args) s2 with
            | .done s3 =>
              match firstUnbound s3 s.frames.length f.params with
              | some pname => .err ("Missing argument " ++ pname ++ " for " ++ c)
              | none =>
                match interp fuel (.sts f.body) { s3 with env := s.frames.length } with
                | .done s4 => .val .null { s4 with env := s.env }
                | .ret v s4 => .val v { s4 with env := s.env }
                | .err m => .err m
                | _ => .oot
            | .err m => .err m
            | _ => .oot
          | .err m => .err m
          | _ => .oot
        | _ => .err (c ++ " is not a function") := rfl

lemma interp_bindPos_nil (fuel : Nat) (c : String) (ci : Nat) (s : St) :
    interp (fuel + 2) (.bindPos c [] ci [] 0) s = .done s := rfl

lemma interp_bindNamed_nil (fuel : Nat) (c : String) (ps : List (String × Option Expr))
    (ci : Nat) (s : St) :
    interp (fuel + 1) (.bindNamed c ps ci []) s = .done s := rfl

lemma getEnvChain_succ (frames : List Frame) (fuel i : Nat) (name : String) :
    getEnvChain frames (fuel + 1) i name =
      match frames[i]? with
      | none => none
      | some f =>
        match lookupVar f.vars name with
        | some v => some v
        | none =>
          match f.parent with
          | none => none
          | some p => getEnvChain frames fuel p name := rfl

/-! ### C2: conditional loop runs update before testing -/

/-- C2: in a conditional repeat-until loop each iteration first runs
the update statement, then evaluates the condition; a truthy condition
stops the loop without running the block (the result does not depend on
the block), a falsy one runs the block and loops; and the quoted
program (let x be 0, repeat x be x + 10 until x at least 100 printing
x) runs its body exactly 9 times, for x = 10 through 90, with x = 100
afterwards. -/
theorem repeatUntil_update_first :
    (∀ fuel u c b s s1 v s2,
        execS fuel u s = .done s1 →
        evalE fuel c s1 = .val v s2 →
        truthy v = true →
        execS (fuel + 1) (.repeatUntil u c b) s = .done s2) ∧
    (∀ fuel u c b s s1 v s2,
        execS fuel u s = .done s1 →
        evalE fuel c s1 = .val v s2 →
        truthy v = false →
        execS (fuel + 1) (.repeatUntil u c b) s =
          match execList fuel b s2 with
          | .done s3 => execS fuel (.repeatUntil u c b) s3
          | other => other) ∧
    execList 100 untilDemo initSt =
      .done { initSt with
              frames := [⟨none, [("x", .num ⟨100, 1⟩)]⟩],
              prints := ["10", "20", "30", "40", "50", "60", "70", "80", "90"] } := by
  refine ⟨?_, ?_, rfl⟩
  · intro fuel u c b s s1 v s2 h1 h2 h3
    simp only [execS, evalE] at *
    rw [interp_st_repeatUntil]
    simp only [h1, h2, h3]
    simp
  · intro fuel u c b s s1 v s2 h1 h2 h3
    simp only [execS, evalE, execList] at *
    rw [interp_st_repeatUntil]
    simp only [h1, h2, h3]
    simp

/-- Witness for C2: a loop whose condition is already true after the
first update run stops immediately, without running the block. -/
theorem repeatUntil_update_first_witness :
    execS 3 (.repeatUntil .finishSvg (qlit 1) [.print (qlit 9)]) initSt = .done initSt :=
  repeatUntil_update_first.1 2 .finishSvg (qlit 1) [.print (qlit 9)] initSt initSt
    (.num ⟨1, 1⟩) initSt rfl rfl rfl

/-! ### C7: eager logical operators and the truthiness coercion -/

/-- to g(): print "effect" / give back false end / print (true or g()). -/
def eagerDemo : List Stmt :=
  [.fnDef "g" [] [.print (.str "effect"), .giveBack (some (.bool false))],
   .print (.binary "or" (.bool true) (.call "g" []))]

/-- C7: and and or evaluate both operands eagerly — the result state is
the state after evaluating the right operand even when the left decides
the outcome — and then apply the truthiness coercion: a boolean is its
own truth value, a number is true iff nonzero, a string is true iff
non-empty, and null and function values are false.  The concrete
program prints the side effect of the right operand of an or whose left
operand is already true. -/
theorem and_or_eager_truthiness :
    (∀ fuel a b s va s1 vb s2,
        evalE fuel a s = .val va s1 →
        evalE fuel b s1 = .val vb s2 →
        evalE (fuel + 1) (.binary "and" a b) s = .val (.bool (truthy va && truthy vb)) s2 ∧
        evalE (fuel + 1) (.binary "or" a b) s = .val (.bool (truthy va || truthy vb)) s2) ∧
    (∀ bo, truthy (.bool bo) = bo) ∧
    (∀ q, truthy (.num q) = decide (q.num ≠ 0)) ∧
    (∀ t, truthy (.str t) = decide (t ≠ "")) ∧
    truthy .null = false ∧
    (∀ f, truthy (.fn f) = false) ∧
    printsOf (execList 100 eagerDemo initSt) = some ["effect", "true"] := by
  refine ⟨?_, fun _ => rfl, ?_, ?_, rfl, fun _ => rfl, rfl⟩
  · intro fuel a b s va s1 vb s2 h1 h2
    simp only [evalE] at *
    constructor <;> (rw [interp_ev_binary]; simp only [h1, h2]; simp [evalBinOp])
  · intro q
    simp [truthy, Q.beqVal, Q.ofInt]
  · intro t
    cases t with
    | mk data =>
      cases data with
      | nil => simp [truthy, String.length]
      | cons c cs =>
        have h : ({ data := c :: cs } : String) ≠ "" := by
          intro h
          exact absurd (congrArg String.data h) (by simp)
        simp [truthy, String.length, h]

/-- Witness for C7: the eager-evaluation clause applied to two boolean
literals. -/
theorem and_or_eager_truthiness_witness :
    evalE 2 (.binary "and" (.bool true) (.bool false)) initSt = .val (.bool false) initSt :=
  (and_or_eager_truthiness.1 1 (.bool true) (.bool false) initSt (.bool true) initSt
    (.bool false) initSt rfl rfl).1

/-! ### C5: there is no execution budget; runaway loops never finish -/

/-- let x be 0 as a loop update that never changes the exit test. -/
def stuckUpdate : Stmt := .varDecl "x" (qlit 0)

/-- repeat let x be 0 until x greater than 0: end — the condition never
becomes true. -/
def stuckLoop : Stmt := .repeatUntil stuckUpdate (.binary ">" (.var "x") (qlit 0)) []

/-- A program that loops forever. -/
def divergeProg : List Stmt := [.varDecl "x" (qlit 0), stuckLoop]

/-- The state in which the runaway loop spins: x bound to 0 in the root
frame. -/
def loopSt : St := { initSt with frames := [⟨none, [("x", .num ⟨0, 1⟩)]⟩] }

lemma stuckLoop_oot : ∀ n, interp n (.st stuckLoop) loopSt = .oot := by
  intro n
  induction n with
  | zero => rfl
  | succ m ih =>
    cases m with
    | zero => rfl
    | succ k =>
      cases k with
      | zero => rfl
      | succ j =>
        -- one full loop iteration (update, test, empty block) reduces
        -- definitionally and returns to the same state with less fuel
        exact ih

/-- C5: the claim (with the spec) requires an optional execution budget
whose overrun fails fast with an ExecutionLimitExceeded error.  The
entry point compileAndRenderSVG takes only the source text — no budget
parameter exists anywhere, no ExecutionLimitExceeded error exists, and
on a program whose conditional loop never satisfies its exit test the
evaluator simply never finishes: for every amount of fuel the run is
still unfinished (and in particular is neither a completed document nor
any error).  The worker shim that invokes the entry point even passes a
stepLimit option, which the implementation ignores. -/
theorem no_execution_budget_divergence :
    ∀ fuel, execList fuel divergeProg initSt = .oot ∧ run fuel divergeProg = .oot := by
  intro fuel
  have hmain : execList fuel divergeProg initSt = .oot := by
    simp only [execList]
    cases fuel with
    | zero => rfl
    | succ m =>
      cases m with
      | zero => rfl
      | succ k =>
        cases k with
        | zero => rfl
        | succ j =>
          -- the leading declaration reduces definitionally to loopSt;
          -- the loop itself never finishes, at any fuel
          show (match interp (j + 1) (.st stuckLoop) loopSt with
                | .done s1 => interp (j + 1) (.sts []) s1
                | other => other) = .oot
          rw [stuckLoop_oot (j + 1)]
  exact ⟨hmain, by simp only [run, hmain]⟩

/-! ### C1: closures give lexical scoping with shared mutable capture -/

/-- let x be 1 / to f(): give back x end /
to g(): let x be 99 / give back f() end /
print g() / set x to 5 / print f(). -/
def closureDemo : List Stmt :=
  [.varDecl "x" (qlit 1),
   .fnDef "f" [] [.giveBack (some (.var "x"))],
   .fnDef "g" [] [.varDecl "x" (qlit 99), .giveBack (some (.call "f" []))],
   .print (.call "g" []),
   .assign "x" (qlit 5),
   .print (.call "f" [])]

/-- Lookup from the freshly pushed activation frame (empty, with the
closure as parent) is lookup from the closure frame. -/
lemma getEnv_pushed (s : St) (k : Nat) (x : String) :
    getEnv { s with frames := s.frames ++ [⟨some k, []⟩], env := s.frames.length } x =
      getEnvChain (s.frames ++ [⟨some k, []⟩]) s.frames.length k x := by
  have hlen : (s.frames ++ [(⟨some k, []⟩ : Frame)]).length = s.frames.length + 1 := by simp
  simp only [getEnv]
  rw [hlen, getEnvChain_succ, List.getElem?_concat_length]
  rfl

/-- Executing the one-statement body give back x resolves x in the
body environment and returns it. -/
lemma call_body_step (n : Nat) (x : String) (s2 : St) :
    interp (n + 3) (.sts [.giveBack (some (.var x))]) s2 =
      match getEnv s2 x with
      | none => R.err ("Undefined variable " ++ x)
      | some v => R.ret v s2 := by
  have h1 : interp (n + 3) (.sts [.giveBack (some (.var x))]) s2 =
      match interp (n + 2) (.st (.giveBack (some (.var x)))) s2 with
      | .done s1 => interp (n + 2) (.sts []) s1
      | other => other := interp_sts_cons (n + 2) _ _ _
  have h2 : interp (n + 2) (.st (.giveBack (some (.var x)))) s2 =
      match interp (n + 1) (.ev (.var x)) s2 with
      | .val v s1 => .ret v s1
      | other => other := interp_st_giveBack_some (n + 1) _ _
  have h3 : interp (n + 1) (.ev (.var x)) s2 =
      match getEnv s2 x with
      | none => .err ("Undefined variable " ++ x)
      | some v => .val v s2 := interp_ev_var n _ _
  rw [h1, h2, h3]
  cases getEnv s2 x <;> rfl

/-- C1: calling a function value whose body returns a free variable
builds a fresh activation frame enclosed by the captured closure frame,
so the variable resolves along the chain starting at the closure — the
callers environment plays no role in the result.  The concrete program
shows both consequences: a function reading x returns the
definition-site binding (1) even when the caller has shadowed x with
99, and after set x to 5 the same function sees 5 (mutation of the
captured variable is visible in later calls). -/
theorem closure_call_lexical :
    (∀ (n : Nat) (s : St) (c x : String) (k : Nat),
        getEnv s c = some (.fn ⟨[], [.giveBack (some (.var x))], k⟩) →
        evalE (n + 4) (.call c []) s =
          match getEnvChain (s.frames ++ [⟨some k, []⟩]) s.frames.length k x with
          | some v => .val v { s with frames := s.frames ++ [⟨some k, []⟩] }
          | none => .err ("Undefined variable " ++ x)) ∧
    printsOf (execList 100 closureDemo initSt) = some ["1", "5"] := by
  refine ⟨?_, rfl⟩
  intro n s c x k h
  simp only [evalE]
  rw [interp_ev_call]
  simp only [h]
  have hb : interp (n + 3) (.bindPos c [] s.frames.length [] 0)
      { s with frames := s.frames ++ [⟨some k, []⟩] } =
      .done { s with frames := s.frames ++ [⟨some k, []⟩] } :=
    interp_bindPos_nil (n + 1) c s.frames.length _
  have hn2 : interp (n + 3) (.bindNamed c [] s.frames.length [])
      { s with frames := s.frames ++ [⟨some k, []⟩] } =
      .done { s with frames := s.frames ++ [⟨some k, []⟩] } :=
    interp_bindNamed_nil (n + 2) c [] s.frames.length _
  have hbody : interp (n + 3) (.sts [.giveBack (some (.var x))])
      { s with frames := s.frames ++ [⟨some k, []⟩], env := s.frames.length } =
      (match getEnv { s with frames := s.frames ++ [⟨some k, []⟩], env := s.frames.length } x with
       | none => R.err ("Undefined variable " ++ x)
       | some v => R.ret v { s with frames := s.frames ++ [⟨some k, []⟩], env := s.frames.length }) :=
    call_body_step n x _
  simp only [hb, hn2, firstUnbound, hbody, getEnv_pushed]
  cases hx : getEnvChain (s.frames ++ [⟨some k, []⟩]) s.frames.length k x with
  | none => rfl
  | some v => rfl

/-- A store holding one root frame that binds y to 7 and f to a
closure over that frame returning y. -/
def lexSt : St :=
  { frames := [⟨none, [("y", .num ⟨7, 1⟩), ("f", .fn ⟨[], [.giveBack (some (.var "y"))], 0⟩)]⟩]
    env := 0
    svg := initSt.svg
    prints := [] }

/-- Witness for C1: calling f in that store returns the captured
binding of y. -/
theorem closure_call_lexical_witness :
    evalE 10 (.call "f" []) lexSt =
      .val (.num ⟨7, 1⟩) { lexSt with frames := lexSt.frames ++ [⟨some 0, []⟩] } :=
  closure_call_lexical.1 6 lexSt "f" "y" 0 rfl

/-! ### C9: the environment chain — lookup, assignment, declaration -/

/-- The sequence of frame indices visited walking from frame i outward
through parent links (innermost first), within the given walk bound. -/
def chainOf (frames : List Frame) : Nat → Nat → List Nat
  | 0, _ => []
  | fuel + 1, i =>
    match frames[i]? with
    | none => []
    | some f =>
      i :: (match f.parent with
            | none => []
            | some p => chainOf frames fuel p)

/-- Does the walk from frame i reach a root frame (one with no parent)
within the bound? -/
def chainClosed (frames : List Frame) : Nat → Nat → Bool
  | 0, _ => false
  | fuel + 1, i =>
    match frames[i]? with
    | none => false
    | some f =>
      match f.parent with
      | none => true
      | some p => chainClosed frames fuel p

/-- The outermost frame reached from frame i. -/
def chainRoot (frames : List Frame) : Nat → Nat → Nat
  | 0, i => i
  | fuel + 1, i =>
    match frames[i]? with
    | none => i
    | some f =>
      match f.parent with
      | none => i
      | some p => chainRoot frames fuel p

lemma interp_st_varDecl (fuel : Nat) (name : String) (e : Expr) (s : St) :
    interp (fuel + 1) (.st (.varDecl name e)) s =
      match interp fuel (.ev e) s with
      | .val v s1 => .done (setFrame s1 s1.env name v)
      | other => other := rfl

lemma interp_st_assign (fuel : Nat) (name : String) (e : Expr) (s : St) :
    interp (fuel + 1) (.st (.assign name e)) s =
      match interp fuel (.ev e) s with
      | .val v s1 => .done (setEnv s1 name v)
      | other => other := rfl

lemma lookupVar_updVar (l : List (String × Value)) (n : String) (v : Value) :
    lookupVar (updVar l n v) n = some v := by
  induction l with
  | nil => simp [updVar, lookupVar]
  | cons kv t ih =>
    by_cases h : kv.1 = n <;> simp [updVar, lookupVar, h, ih]

/-- C9: variable access walks the chain from the innermost frame
outward: lookup returns the first hit along the visited chain;
assignment updates the nearest frame that already declares the name and
otherwise defines the name at the outermost frame; a declaration binds
in the innermost frame, so it shadows any outer binding of the name;
and the declare and assign statements perform exactly those two
operations on the evaluated value. -/
theorem env_chain_semantics :
    (∀ (frames : List Frame) (fuel i : Nat) (name : String),
        getEnvChain frames fuel i name =
          (chainOf frames fuel i).findSome? (fun j =>
            match frames[j]? with
            | some f => lookupVar f.vars name
            | none => none)) ∧
    (∀ (frames : List Frame) (fuel i : Nat) (name : String) (v : Value),
        chainClosed frames fuel i = true →
        setEnvChain frames fuel i name v =
          (match (chainOf frames fuel i).find? (fun j =>
              match frames[j]? with
              | some f => hasVar f.vars name
              | none => false) with
           | some j =>
             (match frames[j]? with
              | some f => frames.set j { f with vars := updVar f.vars name v }
              | none => frames)
           | none =>
             (match frames[chainRoot frames fuel i]? with
              | some f => frames.set (chainRoot frames fuel i)
                  { f with vars := updVar f.vars name v }
              | none => frames))) ∧
    (∀ (s : St) (name : String) (v : Value),
        s.env < s.frames.length →
        getEnv (setFrame s s.env name v) name = some v) ∧
    (∀ fuel name e s v s1,
        evalE fuel e s = .val v s1 →
        execS (fuel + 1) (.varDecl name e) s = .done (setFrame s1 s1.env name v)) ∧
    (∀ fuel name e s v s1,
        evalE fuel e s = .val v s1 →
        execS (fuel + 1) (.assign name e) s = .done (setEnv s1 name v)) := by
  refine ⟨?_, ?_, ?_, ?_, ?_⟩
  · intro frames fuel
    induction fuel with
    | zero => intro i name; rfl
    | succ m ih =>
      intro i name
      rw [getEnvChain_succ]
      cases hg : frames[i]? with
      | none => simp [chainOf, hg]
      | some f =>
        simp only [chainOf, hg]
        cases hl : lookupVar f.vars name with
        | some v => simp [hg, hl]
        | none =>
          cases hp : f.parent with
          | none => simp [hg, hl, hp]
          | some p => simp [hg, hl, hp, ih p]
  · intro frames fuel
    induction fuel with
    | zero => intro i name v hcl; cases hcl
    | succ m ih =>
      intro i name v hcl
      simp only [chainClosed] at hcl
      cases hg : frames[i]? with
      | none => rw [hg] at hcl; cases hcl
      | some f =>
        simp only [hg] at hcl
        show (match frames[i]? with
              | none => frames
              | some f =>
                if hasVar f.vars name then
                  frames.set i { f with vars := updVar f.vars name v }
                else
                  match f.parent with
                  | some p => setEnvChain frames m p name v
                  | none => frames.set i { f with vars := updVar f.vars name v }) = _
        rw [hg]
        simp only [chainOf, chainRoot, hg]
        by_cases hv : hasVar f.vars name
        · simp [hv, hg]
        · cases hp : f.parent with
          | none => simp [hv, hg, hp]
          | some p =>
            rw [hp] at hcl
            simp [hv, hp, hg, ih p name v hcl]
  · intro s name v henv
    obtain ⟨f, hf⟩ : ∃ f, s.frames[s.env]? = some f :=
      ⟨_, List.getElem?_eq_getElem henv⟩
    simp only [setFrame, hf, getEnv]
    rw [List.length_set]
    obtain ⟨m, hm⟩ : ∃ m, s.frames.length = m + 1 :=
      ⟨s.frames.length - 1, by omega⟩
    rw [hm, getEnvChain_succ]
    rw [List.getElem?_set_eq_of_lt _ henv]
    simp [lookupVar_updVar]
  · intro fuel name e s v s1 h
    simp only [execS, evalE] at *
    rw [interp_st_varDecl]
    simp only [h]
  · intro fuel name e s v s1 h
    simp only [execS, evalE] at *
    rw [interp_st_assign]
    simp only [h]

/-- Witness for C9: the characterizations applied in a two-frame store
(root binding x, child empty): assignment through the child updates the
root binding; a fresh declaration in the child shadows it; the declare
and assign statements perform the two operations. -/
theorem env_chain_semantics_witness :
    setEnvChain [⟨none, [("x", .num ⟨1, 1⟩)]⟩, ⟨some 0, []⟩] 2 1 "x" (.num ⟨5, 1⟩) =
      [⟨none, [("x", .num ⟨5, 1⟩)]⟩, ⟨some 0, []⟩] ∧
    getEnv (setFrame lexSt lexSt.env "z" (.num ⟨9, 1⟩)) "z" = some (.num ⟨9, 1⟩) ∧
    execS 2 (.varDecl "a" (qlit 3)) initSt =
      .done (setFrame initSt initSt.env "a" (.num ⟨3, 1⟩)) ∧
    execS 2 (.assign "a" (qlit 3)) initSt = .done (setEnv initSt "a" (.num ⟨3, 1⟩)) :=
  ⟨env_chain_semantics.2.1 _ 2 1 "x" _ rfl,
   env_chain_semantics.2.2.1 lexSt "z" _ (by decide),
   env_chain_semantics.2.2.2.1 1 "a" (qlit 3) initSt _ initSt rfl,
   env_chain_semantics.2.2.2.2 1 "a" (qlit 3) initSt _ initSt rfl⟩



mutual
def noStartStmt : Stmt → Bool
  | .startSvg _ _ => false
  | .repeatTimes _ _ b => noStartStmts b
  | .repeatUntil u _ b => noStartStmt u && noStartStmts b
  | .ifS bs els => noStartBranches bs && noStartOpt els
  | .fnDef _ _ b => noStartStmts b
  | _ => true
def noStartStmts : List Stmt → Bool
  | [] => true
  | stm :: t => noStartStmt stm && noStartStmts t
def noStartBranches : List (Expr × List Stmt) → Bool
  | [] => true
  | (_, b) :: t => noStartStmts b && noStartBranches t
def noStartOpt : Option (List Stmt) → Bool
  | none => true
  | some b => noStartStmts b
end

def noStartVal : Value → Bool
  | .fn f => noStartStmts f.body
  | _ => true

def noStartFrame (f : Frame) : Bool := f.vars.all (fun kv => noStartVal kv.2)

def noStartSt (s : St) : Bool := s.frames.all noStartFrame

def noStartJob : Job → Bool
  | .ev _ => true
  | .st stm => noStartStmt stm
  | .sts l => noStartStmts l
  | .timesLoop _ b _ => noStartStmts b
  | .branches bs els => noStartBranches bs && noStartOpt els
  | _ => true

/-- After-state relation for one no-start interpreter step: the store
still holds only no-start closures, the started flag is unchanged, and
the operation list has only been appended to. -/
def StOk (s s1 : St) : Prop :=
  noStartSt s1 = true ∧ s1.svg.started = s.svg.started ∧
    ∃ t, s1.svg.body = s.svg.body ++ t

lemma StOk_refl {s : St} (hs : noStartSt s = true) : StOk s s :=
  ⟨hs, rfl, ⟨[], (List.append_nil _).symm⟩⟩

lemma StOk.trans {s s1 s2 : St} (h1 : StOk s s1) (h2 : StOk s1 s2) : StOk s s2 := by
  obtain ⟨-, hb1, t, ht⟩ := h1
  obtain ⟨ha2, hb2, u, hu⟩ := h2
  exact ⟨ha2, hb2.trans hb1, ⟨t ++ u, by rw [hu, ht, List.append_assoc]⟩⟩

/-- Invariant on the result of one interpreter step from s on no-start
inputs. -/
def stepInv (s : St) : R → Prop
  | .val v s2 => StOk s s2 ∧ noStartVal v = true
  | .done s2 => StOk s s2
  | .ret v s2 => StOk s s2 ∧ noStartVal v = true
  | .err _ => True
  | .oot => True

/-- Chain the invariant through sequential composition. -/
lemma stepInv_chain {s s1 : St} (h1 : StOk s s1) :
    ∀ {r : R}, stepInv s1 r → stepInv s r := by
  intro r h2
  cases r with
  | val v s2 => exact ⟨h1.trans h2.1, h2.2⟩
  | done s2 => exact h1.trans h2
  | ret v s2 => exact ⟨h1.trans h2.1, h2.2⟩
  | err m => trivial
  | oot => trivial

/-- A step that only appends one rendered element preserves the
invariant. -/
lemma stepInv_append {s s3 : St} (h : StOk s s3) (elem : String) :
    stepInv s (.done { s3 with svg := { s3.svg with body := s3.svg.body ++ [elem] } }) := by
  obtain ⟨ha, hb, t, ht⟩ := h
  exact ⟨ha, hb, ⟨t ++ [elem], by rw [ht, List.append_assoc]⟩⟩

lemma all_updVar {P : String × Value → Bool} (l : List (String × Value)) (n : String)
    (v : Value) (hl : l.all P = true) (hv : P (n, v) = true) :
    (updVar l n v).all P = true := by
  induction l with
  | nil => simp [updVar, hv]
  | cons kv t ih =>
    simp only [List.all_cons, Bool.and_eq_true] at hl
    cases kv with
    | mk k w =>
      by_cases h : k = n
      · subst h; simp only [updVar, if_pos rfl]
        simp_all
      · simp only [updVar, if_neg h]
        simp_all [ih hl.2]

lemma all_set {P : Frame → Bool} (l : List Frame) (i : Nat) (f' : Frame)
    (h : l.all P = true) (hf' : P f' = true) : (l.set i f').all P = true := by
  induction l generalizing i with
  | nil => simp
  | cons a t ih =>
    cases i with
    | zero => simp_all
    | succ j =>
      simp only [List.all_cons, Bool.and_eq_true] at h
      simp [List.set, h.1, ih j h.2]

lemma noStartSt_setFrame {s : St} {v : Value} (i : Nat) (n : String)
    (hs : noStartSt s = true) (hv : noStartVal v = true) :
    noStartSt (setFrame s i n v) = true := by
  simp only [setFrame, noStartSt]
  cases hg : s.frames[i]? with
  | none => exact hs
  | some f =>
    have hf : noStartFrame f = true :=
      List.all_eq_true.mp hs f (List.getElem?_mem hg)
    exact all_set _ _ _ hs (all_updVar _ _ _ hf hv)

lemma noStartSt_setEnvChain {frames : List Frame} {v : Value}
    (hs : frames.all noStartFrame = true) (hv : noStartVal v = true) :
    ∀ (fuel i : Nat) (n : String), (setEnvChain frames fuel i n v).all noStartFrame = true := by
  intro fuel
  induction fuel with
  | zero => intro i n; exact hs
  | succ m ih =>
    intro i n
    show (match frames[i]? with
          | none => frames
          | some f =>
            if hasVar f.vars n then frames.set i { f with vars := updVar f.vars n v }
            else
              match f.parent with
              | some p => setEnvChain frames m p n v
              | none => frames.set i { f with vars := updVar f.vars n v }).all
        noStartFrame = true
    cases hg : frames[i]? with
    | none => exact hs
    | some f =>
      have hf : noStartFrame f = true :=
        List.all_eq_true.mp hs f (List.getElem?_mem hg)
      by_cases hh : hasVar f.vars n
      · simp only [hh, if_true]
        exact all_set _ _ _ hs (all_updVar _ _ _ hf hv)
      · simp only [hh, if_false]
        cases f.parent with
        | some p => exact ih p n
        | none => exact all_set _ _ _ hs (all_updVar _ _ _ hf hv)

lemma lookupVar_all {P : String × Value → Bool} {l : List (String × Value)} {n : String}
    {v : Value} (hl : l.all P = true) (h : lookupVar l n = some v) : P (n, v) = true := by
  induction l with
  | nil => cases h
  | cons kv t ih =>
    simp only [List.all_cons, Bool.and_eq_true] at hl
    cases kv with
    | mk k w =>
      simp only [lookupVar] at h
      by_cases hk : k = n
      · rw [if_pos hk] at h
        cases h
        subst hk
        exact hl.1
      · rw [if_neg hk] at h
        exact ih hl.2 h

lemma getEnvChain_noStart {frames : List Frame}
    (hs : frames.all noStartFrame = true) :
    ∀ (fuel i : Nat) (n : String) (v : Value),
      getEnvChain frames fuel i n = some v → noStartVal v = true := by
  intro fuel
  induction fuel with
  | zero => intro i n v h; cases h
  | succ m ih =>
    intro i n v h
    rw [getEnvChain_succ] at h
    cases hg : frames[i]? with
    | none => rw [hg] at h; cases h
    | some f =>
      simp only [hg] at h
      have hf : noStartFrame f = true :=
        List.all_eq_true.mp hs f (List.getElem?_mem hg)
      cases hl : lookupVar f.vars n with
      | some w =>
        rw [hl] at h
        cases h
        exact lookupVar_all hf hl
      | none =>
        rw [hl] at h
        cases hp : f.parent with
        | none => rw [hp] at h; cases h
        | some p => rw [hp] at h; exact ih p n v h

lemma getEnv_noStart {s : St} {n : String} {v : Value}
    (hs : noStartSt s = true) (h : getEnv s n = some v) : noStartVal v = true :=
  getEnvChain_noStart hs _ _ _ _ h

lemma evalBinOp_noStart {op : String} {a b v : Value}
    (h : evalBinOp op a b = .ok v) : noStartVal v = true := by
  unfold evalBinOp at h
  repeat' split at h
  all_goals first
    | (cases h; rfl)
    | cases h

lemma evalUnOp_noStart {op : String} {r v : Value}
    (h : evalUnOp op r = .ok v) : noStartVal v = true := by
  unfold evalUnOp at h
  repeat' split at h
  all_goals first
    | (cases h; rfl)
    | cases h



/-- Main invariant traversal: on no-start inputs every interpreter step
preserves the store invariant, never flips the started flag, and only
appends to the operation list. -/
lemma interp_stepInv :
    ∀ (fuel : Nat) (job : Job) (s : St),
      noStartSt s = true → noStartJob job = true → stepInv s (interp fuel job s) := by
  intro fuel
  induction fuel with
  | zero => intro job s _ _; exact trivial
  | succ n ih =>
    try dsimp only
    intro job s hs hj
    cases job with
    | ev e =>
      try dsimp only
      cases e with
      | num v => exact ⟨StOk_refl hs, rfl⟩
      | str v => exact ⟨StOk_refl hs, rfl⟩
      | bool v => exact ⟨StOk_refl hs, rfl⟩
      | var name =>
        try dsimp only
        simp only [interp]
        cases hg : getEnv s name with
        | none => trivial
        | some v => exact ⟨StOk_refl hs, getEnv_noStart hs hg⟩
      | group inner =>
        try dsimp only
        simp only [interp]
        exact ih (.ev inner) s hs rfl
      | unary op right =>
        try dsimp only
        simp only [interp]
        cases hr : interp n (.ev right) s with
        | val v s1 =>
          try dsimp only
          have h := ih (.ev right) s hs rfl
          rw [hr] at h
          cases ho : evalUnOp op v with
          | ok w => exact ⟨h.1, evalUnOp_noStart ho⟩
          | error m => trivial
        | done s1 => have h := ih (.ev right) s hs rfl; rw [hr] at h; exact h
        | ret v s1 => have h := ih (.ev right) s hs rfl; rw [hr] at h; exact h
        | err m => trivial
        | oot => trivial
      | binary op a b =>
        try dsimp only
        simp only [interp]
        cases ha : interp n (.ev a) s with
        | val va s1 =>
          try dsimp only
          have h1 := ih (.ev a) s hs rfl
          rw [ha] at h1
          cases hb : interp n (.ev b) s1 with
          | val vb s2 =>
            try dsimp only
            have h2 := ih (.ev b) s1 h1.1.1 rfl
            rw [hb] at h2
            cases ho : evalBinOp op va vb with
            | ok w => exact ⟨h1.1.trans h2.1, evalBinOp_noStart ho⟩
            | error m => trivial
          | done s2 =>
            try dsimp only
            have h2 := ih (.ev b) s1 h1.1.1 rfl; rw [hb] at h2
            exact stepInv_chain h1.1 h2
          | ret vb s2 =>
            try dsimp only
            have h2 := ih (.ev b) s1 h1.1.1 rfl; rw [hb] at h2
            exact stepInv_chain h1.1 h2
          | err m => trivial
          | oot => trivial
        | done s1 => have h := ih (.ev a) s hs rfl; rw [ha] at h; exact h
        | ret va s1 => have h := ih (.ev a) s hs rfl; rw [ha] at h; exact h
        | err m => trivial
        | oot => trivial
      | call callee args =>
        try dsimp only
        simp only [interp]
        cases hg : getEnv s callee with
        | none => trivial
        | some cv =>
          try dsimp only
          cases cv with
          | num q => trivial
          | str t => trivial
          | bool b => trivial
          | null => trivial
          | fn f =>
            try dsimp only
            have hfb : noStartStmts f.body = true := getEnv_noStart hs hg
            have hs1 : noStartSt { s with frames := s.frames ++ [(⟨some f.closure, []⟩ : Frame)] } = true := by
              simp only [noStartSt, List.all_append] at *
              simp [hs, noStartFrame]
            have hok1 : StOk s { s with frames := s.frames ++ [(⟨some f.closure, []⟩ : Frame)] } :=
              ⟨hs1, rfl, ⟨[], (List.append_nil _).symm⟩⟩
            cases hbp : interp n (.bindPos callee f.params s.frames.length args 0)
                { s with frames := s.frames ++ [(⟨some f.closure, []⟩ : Frame)] } with
            | done s2 =>
              try dsimp only
              have h2 := ih (.bindPos callee f.params s.frames.length args 0)
                { s with frames := s.frames ++ [(⟨some f.closure, []⟩ : Frame)] } hs1 rfl
              rw [hbp] at h2
              have hok2 : StOk s s2 := hok1.trans h2
              cases hbn : interp n (.bindNamed callee f.params s.frames.length args) s2 with
              | done s3 =>
                try dsimp only
                have h3 := ih (.bindNamed callee f.params s.frames.length args) s2 hok2.1 rfl
                rw [hbn] at h3
                have hok3 : StOk s s3 := hok2.trans h3
                cases hfu : firstUnbound s3 s.frames.length f.params with
                | some pname => trivial
                | none =>
                  try dsimp only
                  cases hbody : interp n (.sts f.body) { s3 with env := s.frames.length } with
                  | done s4 =>
                    try dsimp only
                    have h4 := ih (.sts f.body) { s3 with env := s.frames.length } hok3.1 hfb
                    rw [hbody] at h4
                    exact ⟨hok3.trans h4, rfl⟩
                  | ret v s4 =>
                    try dsimp only
                    have h4 := ih (.sts f.body) { s3 with env := s.frames.length } hok3.1 hfb
                    rw [hbody] at h4
                    exact ⟨hok3.trans h4.1, h4.2⟩
                  | err m => trivial
                  | val v s4 => trivial
                  | oot => trivial
              | val v s3 => trivial
              | ret v s3 => trivial
              | err m => trivial
              | oot => trivial
            | val v s2 => trivial
            | ret v s2 => trivial
            | err m => trivial
            | oot => trivial
    | bindPos callee params ci args pos =>
      try dsimp only
      simp only [interp]
      cases args with
      | nil => exact ih (.bindDef callee (params.drop pos) ci) s hs rfl
      | cons a rest =>
        try dsimp only
        cases a with
        | mk nm e =>
          try dsimp only
          cases nm with
          | some nm' => exact ih (.bindPos callee params ci rest pos) s hs rfl
          | none =>
            try dsimp only
            cases hp : params[pos]? with
            | none => trivial
            | some p =>
              try dsimp only
              cases he : interp n (.ev e) s with
              | val v s1 =>
                try dsimp only
                have h1 := ih (.ev e) s hs rfl
                rw [he] at h1
                have hsf : noStartSt (setFrame s1 ci p.1 v) = true :=
                  noStartSt_setFrame ci p.1 h1.1.1 h1.2
                have hokf : StOk s (setFrame s1 ci p.1 v) :=
                  h1.1.trans ⟨hsf, rfl, ⟨[], (List.append_nil _).symm⟩⟩
                have h2 := ih (.bindPos callee params ci rest (pos + 1)) (setFrame s1 ci p.1 v) hsf rfl
                exact stepInv_chain hokf h2
              | done s1 => trivial
              | ret v s1 => trivial
              | err m => trivial
              | oot => trivial
    | bindDef callee rest ci =>
      try dsimp only
      simp only [interp]
      cases rest with
      | nil => exact StOk_refl hs
      | cons pd t =>
        try dsimp only
        cases pd with
        | mk pname d =>
          try dsimp only
          cases d with
          | none => exact ih (.bindDef callee t ci) s hs rfl
          | some de =>
            try dsimp only
            cases he : interp n (.ev de) s with
            | val v s1 =>
              try dsimp only
              have h1 := ih (.ev de) s hs rfl
              rw [he] at h1
              have hsf : noStartSt (setFrame s1 ci pname v) = true :=
                noStartSt_setFrame ci pname h1.1.1 h1.2
              have hokf : StOk s (setFrame s1 ci pname v) :=
                h1.1.trans ⟨hsf, rfl, ⟨[], (List.append_nil _).symm⟩⟩
              have h2 := ih (.bindDef callee t ci) (setFrame s1 ci pname v) hsf rfl
              exact stepInv_chain hokf h2
            | done s1 => trivial
            | ret v s1 => trivial
            | err m => trivial
            | oot => trivial
    | bindNamed callee params ci args =>
      try dsimp only
      simp only [interp]
      cases args with
      | nil => exact StOk_refl hs
      | cons a rest =>
        try dsimp only
        cases a with
        | mk nm e =>
          try dsimp only
          cases nm with
          | none => exact ih (.bindNamed callee params ci rest) s hs rfl
          | some nm' =>
            try dsimp only
            cases hf : params.find? (fun p => p.1 = nm') with
            | none => trivial
            | some p =>
              try dsimp only
              cases he : interp n (.ev e) s with
              | val v s1 =>
                try dsimp only
                have h1 := ih (.ev e) s hs rfl
                rw [he] at h1
                have hsf : noStartSt (setFrame s1 ci p.1 v) = true :=
                  noStartSt_setFrame ci p.1 h1.1.1 h1.2
                have hokf : StOk s (setFrame s1 ci p.1 v) :=
                  h1.1.trans ⟨hsf, rfl, ⟨[], (List.append_nil _).symm⟩⟩
                have h2 := ih (.bindNamed callee params ci rest) (setFrame s1 ci p.1 v) hsf rfl
                exact stepInv_chain hokf h2
              | done s1 => trivial
              | ret v s1 => trivial
              | err m => trivial
              | oot => trivial
    | sts l =>
      try dsimp only
      simp only [interp]
      cases l with
      | nil => exact StOk_refl hs
      | cons stm rest =>
        try dsimp only
        simp only [noStartJob, noStartStmts, Bool.and_eq_true] at hj
        cases h1e : interp n (.st stm) s with
        | done s1 =>
          try dsimp only
          have h1 := ih (.st stm) s hs hj.1
          rw [h1e] at h1
          have h2 := ih (.sts rest) s1 h1.1 hj.2
          exact stepInv_chain h1 h2
        | val v s1 => have h1 := ih (.st stm) s hs hj.1; rw [h1e] at h1; exact h1
        | ret v s1 => have h1 := ih (.st stm) s hs hj.1; rw [h1e] at h1; exact h1
        | err m => trivial
        | oot => trivial
    | timesLoop name body ks =>
      try dsimp only
      simp only [interp]
      cases ks with
      | nil => exact StOk_refl hs
      | cons k rest =>
        try dsimp only
        have hsf : noStartSt (setFrame s s.env name (.num (Q.ofInt k))) = true :=
          noStartSt_setFrame s.env name hs rfl
        have hokf : StOk s (setFrame s s.env name (.num (Q.ofInt k))) :=
          ⟨hsf, rfl, ⟨[], (List.append_nil _).symm⟩⟩
        have hjb : noStartStmts body = true := hj
        cases hb : interp n (.sts body) (setFrame s s.env name (.num (Q.ofInt k))) with
        | done s1 =>
          try dsimp only
          have h1 := ih (.sts body) (setFrame s s.env name (.num (Q.ofInt k))) hsf hjb
          rw [hb] at h1
          have hok1 : StOk s s1 := hokf.trans h1
          have h2 := ih (.timesLoop name body rest) s1 hok1.1 hjb
          exact stepInv_chain hok1 h2
        | val v s1 =>
          try dsimp only
          have h1 := ih (.sts body) (setFrame s s.env name (.num (Q.ofInt k))) hsf hjb
          rw [hb] at h1
          exact stepInv_chain hokf h1
        | ret v s1 =>
          try dsimp only
          have h1 := ih (.sts body) (setFrame s s.env name (.num (Q.ofInt k))) hsf hjb
          rw [hb] at h1
          exact stepInv_chain hokf h1
        | err m => trivial
        | oot => trivial
    | branches bs els =>
      try dsimp only
      simp only [interp]
      cases bs with
      | nil =>
        try dsimp only
        cases els with
        | none => exact StOk_refl hs
        | some b =>
          try dsimp only
          simp only [noStartJob, noStartOpt, Bool.and_eq_true] at hj
          exact ih (.sts b) s hs hj.2
      | cons br rest =>
        try dsimp only
        cases br with
        | mk c b =>
          try dsimp only
          simp only [noStartJob, noStartBranches, Bool.and_eq_true] at hj
          cases hc : interp n (.ev c) s with
          | val v s1 =>
            try dsimp only
            have h1 := ih (.ev c) s hs rfl
            rw [hc] at h1
            by_cases ht : truthy v
            · simp only [ht, if_true]
              have h2 := ih (.sts b) s1 h1.1.1 hj.1.1
              exact stepInv_chain h1.1 h2
            · simp only [ht, if_false]
              have h2 := ih (.branches rest els) s1 h1.1.1 (by
                simp only [noStartJob, Bool.and_eq_true]
                exact ⟨hj.1.2, hj.2⟩)
              exact stepInv_chain h1.1 h2
          | done s1 => trivial
          | ret v s1 => trivial
          | err m => trivial
          | oot => trivial
    | st stm =>
      try dsimp only
      cases stm with
      | varDecl name e =>
        try dsimp only
        simp only [interp]
        cases he : interp n (.ev e) s with
        | val v s1 =>
          try dsimp only
          have h1 := ih (.ev e) s hs rfl
          rw [he] at h1
          have hsf : noStartSt (setFrame s1 s1.env name v) = true :=
            noStartSt_setFrame s1.env name h1.1.1 h1.2
          exact h1.1.trans ⟨hsf, rfl, ⟨[], (List.append_nil _).symm⟩⟩
        | done s1 => have h := ih (.ev e) s hs rfl; rw [he] at h; exact h
        | ret v s1 => have h := ih (.ev e) s hs rfl; rw [he] at h; exact h
        | err m => trivial
        | oot => trivial
      | assign name e =>
        try dsimp only
        simp only [interp]
        cases he : interp n (.ev e) s with
        | val v s1 =>
          try dsimp only
          have h1 := ih (.ev e) s hs rfl
          rw [he] at h1
          have hse : noStartSt (setEnv s1 name v) = true :=
            noStartSt_setEnvChain h1.1.1 h1.2 _ _ _
          exact h1.1.trans ⟨hse, rfl, ⟨[], (List.append_nil _).symm⟩⟩
        | done s1 => have h := ih (.ev e) s hs rfl; rw [he] at h; exact h
        | ret v s1 => have h := ih (.ev e) s hs rfl; rw [he] at h; exact h
        | err m => trivial
        | oot => trivial
      | print e =>
        try dsimp only
        simp only [interp]
        cases he : interp n (.ev e) s with
        | val v s1 =>
          try dsimp only
          have h1 := ih (.ev e) s hs rfl
          rw [he] at h1
          exact h1.1
        | done s1 => have h := ih (.ev e) s hs rfl; rw [he] at h; exact h
        | ret v s1 => have h := ih (.ev e) s hs rfl; rw [he] at h; exact h
        | err m => trivial
        | oot => trivial
      | useFill c =>
        try dsimp only
        simp only [interp]
        cases he : interp n (.ev c) s with
        | val v s1 =>
          try dsimp only
          have h1 := ih (.ev c) s hs rfl
          rw [he] at h1
          cases v with
          | str col => exact h1.1
          | num q => trivial
          | bool b => trivial
          | null => trivial
          | fn f => trivial
        | done s1 => have h := ih (.ev c) s hs rfl; rw [he] at h; exact h
        | ret v s1 => have h := ih (.ev c) s hs rfl; rw [he] at h; exact h
        | err m => trivial
        | oot => trivial
      | useStroke c w =>
        try dsimp only
        simp only [interp]
        cases hc : interp n (.ev c) s with
        | val vc s1 =>
          try dsimp only
          have h1 := ih (.ev c) s hs rfl
          rw [hc] at h1
          cases hw : interp n (.ev w) s1 with
          | val vw s2 =>
            try dsimp only
            have h2 := ih (.ev w) s1 h1.1.1 rfl
            rw [hw] at h2
            cases vc with
            | str col =>
              try dsimp only
              cases vw with
              | num q => exact h1.1.trans h2.1
              | str t2 => trivial
              | bool b2 => trivial
              | null => trivial
              | fn f2 => trivial
            | num q => trivial
            | bool b2 => trivial
            | null => trivial
            | fn f2 => trivial
          | done s2 =>
            try dsimp only
            have h2 := ih (.ev w) s1 h1.1.1 rfl; rw [hw] at h2
            exact stepInv_chain h1.1 h2
          | ret vw s2 =>
            try dsimp only
            have h2 := ih (.ev w) s1 h1.1.1 rfl; rw [hw] at h2
            exact stepInv_chain h1.1 h2
          | err m => trivial
          | oot => trivial
        | done s1 => have h := ih (.ev c) s hs rfl; rw [hc] at h; exact h
        | ret vc s1 => have h := ih (.ev c) s hs rfl; rw [hc] at h; exact h
        | err m => trivial
        | oot => trivial
      | noFill => exact StOk_refl hs
      | noStroke => exact StOk_refl hs
      | startSvg we he => exact absurd hj (by simp [noStartJob, noStartStmt])
      | finishSvg => exact StOk_refl hs
      | drawCircle xe ye re =>
        try dsimp only
        simp only [interp]
        cases hx : interp n (.ev xe) s with
        | val vx s1 =>
          try dsimp only
          have h1 := ih (.ev xe) s hs rfl
          rw [hx] at h1
          cases vx with
          | num x =>
            try dsimp only
            cases hy : interp n (.ev ye) s1 with
            | val vy s2 =>
              try dsimp only
              have h2 := ih (.ev ye) s1 h1.1.1 rfl
              rw [hy] at h2
              cases vy with
              | num y =>
                try dsimp only
                cases hr : interp n (.ev re) s2 with
                | val vr s3 =>
                  try dsimp only
                  have h3 := ih (.ev re) s2 h2.1.1 rfl
                  rw [hr] at h3
                  cases vr with
                  | num r => exact stepInv_append ((h1.1.trans h2.1).trans h3.1) _
                  | str t2 => trivial
                  | bool b2 => trivial
                  | null => trivial
                  | fn f2 => trivial
                | done s3 =>
                  try dsimp only
                  have h3 := ih (.ev re) s2 h2.1.1 rfl; rw [hr] at h3
                  exact stepInv_chain (h1.1.trans h2.1) h3
                | ret vr s3 =>
                  try dsimp only
                  have h3 := ih (.ev re) s2 h2.1.1 rfl; rw [hr] at h3
                  exact stepInv_chain (h1.1.trans h2.1) h3
                | err m => trivial
                | oot => trivial
              | str t2 => trivial
              | bool b2 => trivial
              | null => trivial
              | fn f2 => trivial
            | done s2 =>
              try dsimp only
              have h2 := ih (.ev ye) s1 h1.1.1 rfl; rw [hy] at h2
              exact stepInv_chain h1.1 h2
            | ret vy s2 =>
              try dsimp only
              have h2 := ih (.ev ye) s1 h1.1.1 rfl; rw [hy] at h2
              exact stepInv_chain h1.1 h2
            | err m => trivial
            | oot => trivial
          | str t2 => trivial
          | bool b2 => trivial
          | null => trivial
          | fn f2 => trivial
        | done s1 => have h := ih (.ev xe) s hs rfl; rw [hx] at h; exact h
        | ret vx s1 => have h := ih (.ev xe) s hs rfl; rw [hx] at h; exact h
        | err m => trivial
        | oot => trivial
      | drawRect xe ye we he2 =>
        try dsimp only
        simp only [interp]
        cases hx : interp n (.ev xe) s with
        | val vx s1 =>
          try dsimp only
          have h1 := ih (.ev xe) s hs rfl
          rw [hx] at h1
          cases vx with
          | num x =>
            try dsimp only
            cases hy : interp n (.ev ye) s1 with
            | val vy s2 =>
              try dsimp only
              have h2 := ih (.ev ye) s1 h1.1.1 rfl
              rw [hy] at h2
              cases vy with
              | num y =>
                try dsimp only
                cases hw : interp n (.ev we) s2 with
                | val vw s3 =>
                  try dsimp only
                  have h3 := ih (.ev we) s2 h2.1.1 rfl
                  rw [hw] at h3
                  cases vw with
                  | num w =>
                    try dsimp only
                    cases hh : interp n (.ev he2) s3 with
                    | val vh s4 =>
                      try dsimp only
                      have h4 := ih (.ev he2) s3 h3.1.1 rfl
                      rw [hh] at h4
                      cases vh with
                      | num h5 =>
                        try dsimp only
                        exact stepInv_append (((h1.1.trans h2.1).trans h3.1).trans h4.1) _
                      | str t2 => trivial
                      | bool b2 => trivial
                      | null => trivial
                      | fn f2 => trivial
                    | done s4 =>
                      try dsimp only
                      have h4 := ih (.ev he2) s3 h3.1.1 rfl; rw [hh] at h4
                      exact stepInv_chain ((h1.1.trans h2.1).trans h3.1) h4
                    | ret vh s4 =>
                      try dsimp only
                      have h4 := ih (.ev he2) s3 h3.1.1 rfl; rw [hh] at h4
                      exact stepInv_chain ((h1.1.trans h2.1).trans h3.1) h4
                    | err m => trivial
                    | oot => trivial
                  | str t2 => trivial
                  | bool b2 => trivial
                  | null => trivial
                  | fn f2 => trivial
                | done s3 =>
                  try dsimp only
                  have h3 := ih (.ev we) s2 h2.1.1 rfl; rw [hw] at h3
                  exact stepInv_chain (h1.1.trans h2.1) h3
                | ret vw s3 =>
                  try dsimp only
                  have h3 := ih (.ev we) s2 h2.1.1 rfl; rw [hw] at h3
                  exact stepInv_chain (h1.1.trans h2.1) h3
                | err m => trivial
                | oot => trivial
              | str t2 => trivial
              | bool b2 => trivial
              | null => trivial
              | fn f2 => trivial
            | done s2 =>
              try dsimp only
              have h2 := ih (.ev ye) s1 h1.1.1 rfl; rw [hy] at h2
              exact stepInv_chain h1.1 h2
            | ret vy s2 =>
              try dsimp only
              have h2 := ih (.ev ye) s1 h1.1.1 rfl; rw [hy] at h2
              exact stepInv_chain h1.1 h2
            | err m => trivial
            | oot => trivial
          | str t2 => trivial
          | bool b2 => trivial
          | null => trivial
          | fn f2 => trivial
        | done s1 => have h := ih (.ev xe) s hs rfl; rw [hx] at h; exact h
        | ret vx s1 => have h := ih (.ev xe) s hs rfl; rw [hx] at h; exact h
        | err m => trivial
        | oot => trivial
      | drawLine x1e y1e x2e y2e =>
        try dsimp only
        simp only [interp]
        cases hx : interp n (.ev x1e) s with
        | val v1 s1 =>
          try dsimp only
          have h1 := ih (.ev x1e) s hs rfl
          rw [hx] at h1
          cases v1 with
          | num x1 =>
            try dsimp only
            cases hy : interp n (.ev y1e) s1 with
            | val v2 s2 =>
              try dsimp only
              have h2 := ih (.ev y1e) s1 h1.1.1 rfl
              rw [hy] at h2
              cases v2 with
              | num y1 =>
                try dsimp only
                cases hw : interp n (.ev x2e) s2 with
                | val v3 s3 =>
                  try dsimp only
                  have h3 := ih (.ev x2e) s2 h2.1.1 rfl
                  rw [hw] at h3
                  cases v3 with
                  | num x2 =>
                    try dsimp only
                    cases hh : interp n (.ev y2e) s3 with
                    | val v4 s4 =>
                      try dsimp only
                      have h4 := ih (.ev y2e) s3 h3.1.1 rfl
                      rw [hh] at h4
                      cases v4 with
                      | num y2 =>
                        try dsimp only
                        exact stepInv_append (((h1.1.trans h2.1).trans h3.1).trans h4.1) _
                      | str t2 => trivial
                      | bool b2 => trivial
                      | null => trivial
                      | fn f2 => trivial
                    | done s4 =>
                      try dsimp only
                      have h4 := ih (.ev y2e) s3 h3.1.1 rfl; rw [hh] at h4
                      exact stepInv_chain ((h1.1.trans h2.1).trans h3.1) h4
                    | ret v4 s4 =>
                      try dsimp only
                      have h4 := ih (.ev y2e) s3 h3.1.1 rfl; rw [hh] at h4
                      exact stepInv_chain ((h1.1.trans h2.1).trans h3.1) h4
                    | err m => trivial
                    | oot => trivial
                  | str t2 => trivial
                  | bool b2 => trivial
                  | null => trivial
                  | fn f2 => trivial
                | done s3 =>
                  try dsimp only
                  have h3 := ih (.ev x2e) s2 h2.1.1 rfl; rw [hw] at h3
                  exact stepInv_chain (h1.1.trans h2.1) h3
                | ret v3 s3 =>
                  try dsimp only
                  have h3 := ih (.ev x2e) s2 h2.1.1 rfl; rw [hw] at h3
                  exact stepInv_chain (h1.1.trans h2.1) h3
                | err m => trivial
                | oot => trivial
              | str t2 => trivial
              | bool b2 => trivial
              | null => trivial
              | fn f2 => trivial
            | done s2 =>
              try dsimp only
              have h2 := ih (.ev y1e) s1 h1.1.1 rfl; rw [hy] at h2
              exact stepInv_chain h1.1 h2
            | ret v2 s2 =>
              try dsimp only
              have h2 := ih (.ev y1e) s1 h1.1.1 rfl; rw [hy] at h2
              exact stepInv_chain h1.1 h2
            | err m => trivial
            | oot => trivial
          | str t2 => trivial
          | bool b2 => trivial
          | null => trivial
          | fn f2 => trivial
        | done s1 => have h := ih (.ev x1e) s hs rfl; rw [hx] at h; exact h
        | ret v1 s1 => have h := ih (.ev x1e) s hs rfl; rw [hx] at h; exact h
        | err m => trivial
        | oot => trivial
      | drawText te xe ye sze =>
        try dsimp only
        simp only [interp]
        cases htxt : interp n (.ev te) s with
        | val vt s1 =>
          try dsimp only
          have h1 := ih (.ev te) s hs rfl
          rw [htxt] at h1
          cases vt with
          | str txt =>
            try dsimp only
            cases hx : interp n (.ev xe) s1 with
            | val vx s2 =>
              try dsimp only
              have h2 := ih (.ev xe) s1 h1.1.1 rfl
              rw [hx] at h2
              cases vx with
              | num x =>
                try dsimp only
                cases hy : interp n (.ev ye) s2 with
                | val vy s3 =>
                  try dsimp only
                  have h3 := ih (.ev ye) s2 h2.1.1 rfl
                  rw [hy] at h3
                  cases vy with
                  | num y =>
                    try dsimp only
                    cases sze with
                    | none =>
                      try dsimp only
                      exact stepInv_append ((h1.1.trans h2.1).trans h3.1) _
                    | some se =>
                      try dsimp only
                      cases hsz : interp n (.ev se) s3 with
                      | val vs s4 =>
                        try dsimp only
                        have h4 := ih (.ev se) s3 h3.1.1 rfl
                        rw [hsz] at h4
                        cases vs with
                        | num sz =>
                          try dsimp only
                          exact stepInv_append (((h1.1.trans h2.1).trans h3.1).trans h4.1) _
                        | str t2 => trivial
                        | bool b2 => trivial
                        | null => trivial
                        | fn f2 => trivial
                      | done s4 =>
                        try dsimp only
                        have h4 := ih (.ev se) s3 h3.1.1 rfl; rw [hsz] at h4
                        exact stepInv_chain ((h1.1.trans h2.1).trans h3.1) h4
                      | ret vs s4 =>
                        try dsimp only
                        have h4 := ih (.ev se) s3 h3.1.1 rfl; rw [hsz] at h4
                        exact stepInv_chain ((h1.1.trans h2.1).trans h3.1) h4
                      | err m => trivial
                      | oot => trivial
                  | str t2 => trivial
                  | bool b2 => trivial
                  | null => trivial
                  | fn f2 => trivial
                | done s3 =>
                  try dsimp only
                  have h3 := ih (.ev ye) s2 h2.1.1 rfl; rw [hy] at h3
                  exact stepInv_chain (h1.1.trans h2.1) h3
                | ret vy s3 =>
                  try dsimp only
                  have h3 := ih (.ev ye) s2 h2.1.1 rfl; rw [hy] at h3
                  exact stepInv_chain (h1.1.trans h2.1) h3
                | err m => trivial
                | oot => trivial
              | str t2 => trivial
              | bool b2 => trivial
              | null => trivial
              | fn f2 => trivial
            | done s2 =>
              try dsimp only
              have h2 := ih (.ev xe) s1 h1.1.1 rfl; rw [hx] at h2
              exact stepInv_chain h1.1 h2
            | ret vx s2 =>
              try dsimp only
              have h2 := ih (.ev xe) s1 h1.1.1 rfl; rw [hx] at h2
              exact stepInv_chain h1.1 h2
            | err m => trivial
            | oot => trivial
          | num q => trivial
          | bool b2 => trivial
          | null => trivial
          | fn f2 => trivial
        | done s1 => have h := ih (.ev te) s hs rfl; rw [htxt] at h; exact h
        | ret vt s1 => have h := ih (.ev te) s hs rfl; rw [htxt] at h; exact h
        | err m => trivial
        | oot => trivial
      | repeatTimes count asVar body =>
        try dsimp only
        have hjb : noStartStmts body = true := by
          simpa [noStartStmt] using hj
        simp only [interp]
        cases hc : interp n (.ev count) s with
        | val vc s1 =>
          try dsimp only
          have h1 := ih (.ev count) s hs rfl
          rw [hc] at h1
          cases vc with
          | num q =>
            try dsimp only
            have h2 := ih (.timesLoop (asVar.getD "it") body
              ((List.range (max 0 q.floor).toNat).map (fun j => (j : Int) + 1))) s1 h1.1.1 hjb
            exact stepInv_chain h1.1 h2
          | str t2 => trivial
          | bool b2 => trivial
          | null => trivial
          | fn f2 => trivial
        | done s1 => have h := ih (.ev count) s hs rfl; rw [hc] at h; exact h
        | ret vc s1 => have h := ih (.ev count) s hs rfl; rw [hc] at h; exact h
        | err m => trivial
        | oot => trivial
      | ifS bs els =>
        try dsimp only
        simp only [interp]
        exact ih (.branches bs els) s hs (by
          simp only [noStartJob, noStartStmt] at hj ⊢
          exact hj)
      | fnDef name params body =>
        try dsimp only
        have hjb : noStartStmts body = true := by
          simpa [noStartStmt] using hj
        simp only [interp]
        have hsf : noStartSt (setFrame s s.env name (.fn ⟨params, body, s.env⟩)) = true :=
          noStartSt_setFrame s.env name hs hjb
        exact ⟨hsf, rfl, ⟨[], (List.append_nil _).symm⟩⟩
      | giveBack e? =>
        try dsimp only
        simp only [interp]
        cases e? with
        | none => exact ⟨StOk_refl hs, rfl⟩
        | some e =>
          try dsimp only
          cases he : interp n (.ev e) s with
          | val v s1 =>
            try dsimp only
            have h1 := ih (.ev e) s hs rfl
            rw [he] at h1
            exact h1
          | done s1 => have h := ih (.ev e) s hs rfl; rw [he] at h; exact h
          | ret v s1 => have h := ih (.ev e) s hs rfl; rw [he] at h; exact h
          | err m => trivial
          | oot => trivial
      | repeatUntil u c b =>
        try dsimp only
        have hju : noStartStmt u = true ∧ noStartStmts b = true := by
          have h2 : (noStartStmt u && noStartStmts b) = true := hj
          simpa using h2
        simp only [interp]
        cases hu : interp n (.st u) s with
        | done s1 =>
          try dsimp only
          have h1 := ih (.st u) s hs hju.1
          rw [hu] at h1
          cases hc : interp n (.ev c) s1 with
          | val v s2 =>
            try dsimp only
            have h2 := ih (.ev c) s1 h1.1 rfl
            rw [hc] at h2
            by_cases ht : truthy v
            · simp only [ht, if_true]
              exact h1.trans h2.1
            · simp only [ht, if_false]
              cases hb : interp n (.sts b) s2 with
              | done s3 =>
                try dsimp only
                have h3 := ih (.sts b) s2 h2.1.1 hju.2
                rw [hb] at h3
                have hok3 : StOk s s3 := (h1.trans h2.1).trans h3
                have h4 := ih (.st (.repeatUntil u c b)) s3 hok3.1 hj
                exact stepInv_chain hok3 h4
              | val v2 s3 =>
                try dsimp only
                have h3 := ih (.sts b) s2 h2.1.1 hju.2
                rw [hb] at h3
                exact stepInv_chain (h1.trans h2.1) h3
              | ret v2 s3 =>
                try dsimp only
                have h3 := ih (.sts b) s2 h2.1.1 hju.2
                rw [hb] at h3
                exact stepInv_chain (h1.trans h2.1) h3
              | err m => trivial
              | oot => trivial
          | done s2 => trivial
          | ret v s2 => trivial
          | err m => trivial
          | oot => trivial
        | val v s1 => have h := ih (.st u) s hs hju.1; rw [hu] at h; exact h
        | ret v s1 => have h := ih (.st u) s hs hju.1; rw [hu] at h; exact h
        | err m => trivial
        | oot => trivial


/-! ### C8 (amended) and C10: style snapshots and the no-start run -/

/-- C8 amended: every element is rendered at emission time from the
style then in effect, and execution of any statement that does not
(re)start the canvas only appends to the operation list, so later style
statements never alter earlier elements; when fill is absent the
element carries fill set to the string none; when stroke is absent the
attribute list carries no stroke attributes for circle, rect and text —
but a line element emitted with stroke absent gets default attributes
stroke black and stroke-width 1 appended.  The two concrete runs show
the per-element style snapshots and the absent-stroke serialization. -/
theorem style_snapshot_semantics :
    (∀ (fuel : Nat) (stm : Stmt) (s s2 : St),
        noStartSt s = true → noStartStmt stm = true →
        execS fuel stm s = .done s2 →
        ∃ t, s2.svg.body = s.svg.body ++ t) ∧
    (∀ (st : SvgState) (extra : List (String × String)),
        st.fill = none →
        ∃ rest, attrsList st extra = ("fill", "none") :: rest) ∧
    (∀ (st : SvgState) (extra : List (String × String)),
        st.stroke = none →
        attrsList st extra =
          (match st.fill with
           | some f => [("fill", f)]
           | none => [("fill", "none")]) ++ extra) ∧
    (∀ (b : SvgBuilder) (x1 y1 x2 y2 : Q),
        b.state.stroke = none →
        svgLine b x1 y1 x2 y2 =
          { b with body := b.body ++
              ["<line " ++ attrs b.state
                  [("x1", x1.toStr), ("y1", y1.toStr), ("x2", x2.toStr), ("y2", y2.toStr)]
                ++ " stroke=\"black\" stroke-width=\"1\"" ++ " />"] }) ∧
    run 100 snapDemo =
      .out ("<svg xmlns=\"http://www.w3.org/2000/svg\" width=\"10\" height=\"10\" viewBox=\"0 0 10 10\">\n"
        ++ "<circle fill=\"red\" cx=\"1\" cy=\"1\" r=\"1\" />\n"
        ++ "<circle fill=\"blue\" cx=\"2\" cy=\"2\" r=\"2\" />\n</svg>") ∧
    run 100 noStrokeDemo =
      .out ("<svg xmlns=\"http://www.w3.org/2000/svg\" width=\"10\" height=\"10\" viewBox=\"0 0 10 10\">\n"
        ++ "<rect fill=\"none\" x=\"1\" y=\"1\" width=\"2\" height=\"2\" />\n"
        ++ "<text x=\"3\" y=\"4\" font-size=\"14\" fill=\"none\">hi</text>\n</svg>") := by
  refine ⟨?_, ?_, ?_, ?_, rfl, rfl⟩
  · intro fuel stm s s2 hsst hstm hdone
    have h := interp_stepInv fuel (.st stm) s hsst hstm
    rw [execS] at hdone
    rw [hdone] at h
    exact h.2.2
  · intro st extra h
    exact ⟨(match st.stroke with
            | some c => [("stroke", c), ("stroke-width", st.strokeWidth.toStr)]
            | none => []) ++ extra, by simp [attrsList, h]⟩
  · intro st extra h
    simp [attrsList, h]
  · intro b x1 y1 x2 y2 h
    simp only [svgLine, h]

/-- Witness for C8: a style statement run before-hand only appends (an
empty extension here), and the attribute characterizations at a
concrete state. -/
theorem style_snapshot_semantics_witness :
    (∃ t, ({ initSt with svg.state.fill := some "red" } : St).svg.body =
        initSt.svg.body ++ t) ∧
    (∃ rest, attrsList ⟨none, none, Q.ofInt 1⟩ [("cx", "1")] = ("fill", "none") :: rest) ∧
    attrsList ⟨some "red", none, Q.ofInt 1⟩ [("x", "2")] = [("fill", "red")] ++ [("x", "2")] ∧
    svgLine initSt.svg (Q.ofInt 0) (Q.ofInt 0) (Q.ofInt 1) (Q.ofInt 1) =
      { initSt.svg with body := initSt.svg.body ++
          ["<line " ++ attrs initSt.svg.state
              [("x1", (Q.ofInt 0).toStr), ("y1", (Q.ofInt 0).toStr),
               ("x2", (Q.ofInt 1).toStr), ("y2", (Q.ofInt 1).toStr)]
            ++ " stroke=\"black\" stroke-width=\"1\"" ++ " />"] } :=
  ⟨style_snapshot_semantics.1 5 (.useFill (.str "red")) initSt
      { initSt with svg.state.fill := some "red" } rfl rfl rfl,
   style_snapshot_semantics.2.1 ⟨none, none, Q.ofInt 1⟩ [("cx", "1")] rfl,
   style_snapshot_semantics.2.2.1 ⟨some "red", none, Q.ofInt 1⟩ [("x", "2")] rfl,
   style_snapshot_semantics.2.2.2.1 initSt.svg (Q.ofInt 0) (Q.ofInt 0) (Q.ofInt 1)
      (Q.ofInt 1) rfl⟩

/-- C10: a program that runs to completion without error and never
executes a canvas-start statement returns the empty string — no header,
body or footer — even when it executed print statements (the print sink
is populated independently of the returned document). -/
theorem no_start_empty_output :
    ∀ (fuel : Nat) (prog : List Stmt) (s2 : St),
      noStartStmts prog = true →
      execList fuel prog initSt = .done s2 →
      s2.svg.started = false ∧ run fuel prog = .out "" := by
  intro fuel prog s2 hp hdone
  have hinit : noStartSt initSt = true := rfl
  have h := interp_stepInv fuel (.sts prog) initSt hinit hp
  rw [execList] at hdone
  rw [hdone] at h
  have hstart : s2.svg.started = false := h.2.1
  refine ⟨hstart, ?_⟩
  simp only [run, execList, hdone, hstart]
  rfl

/-- Witness for C10: a program that only prints returns the empty
string while its print side effect still happened. -/
theorem no_start_empty_output_witness :
    run 10 [.print (.str "hi")] = .out "" ∧
    execList 10 [.print (.str "hi")] initSt = .done { initSt with prints := ["hi"] } :=
  ⟨(no_start_empty_output 10 [.print (.str "hi")] { initSt with prints := ["hi"] }
      (by decide) rfl).2,
   rfl⟩

end SvgLang
